import Mathlib

/-!
# Verification of the chat-backend core

A shallow embedding of the server core (`src/server/routes.ts`,
`src/server/websocket.ts`) of a minimal Telegram-gated chat backend, and
proofs about it.

Conventions of the embedding:
* Byte strings are `List Nat` with every element `< 256`; 32-bit words are
  `Nat` reduced explicitly with `% 4294967296`.
* JavaScript exceptions are `Except String`; a caught exception is an
  `Except.error` value consumed by the catching code.
* `Math.random()`-derived draws are modelled as explicit `Nat` parameters,
  reduced by the modulus the source applies to the draw.
* JS strings are Lean `String`s. ASCII strings are converted to their byte
  lists by `strBytes`; all concrete inputs used below are ASCII, for which
  this agrees with UTF-8 encoding. JS string comparison (UTF-16 code-unit
  order) agrees with byte-wise order on ASCII, which is how key sorting is
  modelled.
* The persistence layer (`./storage`) is not part of the provided sources;
  its operations are modelled from the specification (section 6) and are
  marked `Modelled from the spec:` below.
-/

/-! ## 32-bit words and SHA-256 (model of node:crypto sha256/HMAC) -/

def w32 : Nat := 4294967296

def add32 (a b : Nat) : Nat := (a + b) % w32

def rotr32 (n x : Nat) : Nat := ((x >>> n) ||| (x <<< (32 - n))) % w32

def not32 (x : Nat) : Nat := x ^^^ (w32 - 1)

def bsig0 (x : Nat) : Nat := rotr32 2 x ^^^ rotr32 13 x ^^^ rotr32 22 x

def bsig1 (x : Nat) : Nat := rotr32 6 x ^^^ rotr32 11 x ^^^ rotr32 25 x

def ssig0 (x : Nat) : Nat := rotr32 7 x ^^^ rotr32 18 x ^^^ (x >>> 3)

def ssig1 (x : Nat) : Nat := rotr32 17 x ^^^ rotr32 19 x ^^^ (x >>> 10)

def chF (x y z : Nat) : Nat := (x &&& y) ^^^ (not32 x &&& z)

def majF (x y z : Nat) : Nat := (x &&& y) ^^^ (x &&& z) ^^^ (y &&& z)

/-- The 64 SHA-256 round constants. -/
def shaK : List Nat :=
  [0x428a2f98, 0x71374491, 0xb5c0fbcf, 0xe9b5dba5, 0x3956c25b, 0x59f111f1, 0x923f82a4, 0xab1c5ed5] ++
  [0xd807aa98, 0x12835b01, 0x243185be, 0x550c7dc3, 0x72be5d74, 0x80deb1fe, 0x9bdc06a7, 0xc19bf174] ++
  [0xe49b69c1, 0xefbe4786, 0x0fc19dc6, 0x240ca1cc, 0x2de92c6f, 0x4a7484aa, 0x5cb0a9dc, 0x76f988da] ++
  [0x983e5152, 0xa831c66d, 0xb00327c8, 0xbf597fc7, 0xc6e00bf3, 0xd5a79147, 0x06ca6351, 0x14292967] ++
  [0x27b70a85, 0x2e1b2138, 0x4d2c6dfc, 0x53380d13, 0x650a7354, 0x766a0abb, 0x81c2c92e, 0x92722c85] ++
  [0xa2bfe8a1, 0xa81a664b, 0xc24b8b70, 0xc76c51a3, 0xd192e819, 0xd6990624, 0xf40e3585, 0x106aa070] ++
  [0x19a4c116, 0x1e376c08, 0x2748774c, 0x34b0bcb5, 0x391c0cb3, 0x4ed8aa4a, 0x5b9cca4f, 0x682e6ff3] ++
  [0x748f82ee, 0x78a5636f, 0x84c87814, 0x8cc70208, 0x90befffa, 0xa4506ceb, 0xbef9a3f7, 0xc67178f2]

/-- The SHA-256 initial hash state. -/
def shaH0 : List Nat :=
  [0x6a09e667, 0xbb67ae85, 0x3c6ef372, 0xa54ff53a, 0x510e527f, 0x9b05688c, 0x1f83d9ab, 0x5be0cd19]

/-- Extend a message schedule (kept most-recent-first) by one word:
`w[i] = ssig1 w[i-2] + w[i-7] + ssig0 w[i-15] + w[i-16]`. -/
def schedStep (ws : List Nat) : List Nat :=
  add32 (add32 (ssig1 (ws.getD 1 0)) (ws.getD 6 0))
        (add32 (ssig0 (ws.getD 14 0)) (ws.getD 15 0)) :: ws

/-- Extend the (reversed) message schedule `n` more words. -/
def sched : List Nat → Nat → List Nat
  | ws, 0 => ws
  | ws, n + 1 => sched (schedStep ws) n

/-- One SHA-256 round on the 8 working variables. -/
def shaRound (st : List Nat) (kw : Nat × Nat) : List Nat :=
  match st with
  | [a, b, c, d, e, f, g, h] =>
    let t1 := add32 (add32 (add32 h (bsig1 e)) (add32 (chF e f g) kw.1)) kw.2
    let t2 := add32 (bsig0 a) (majF a b c)
    [add32 t1 t2, a, b, c, add32 d t1, e, f, g]
  | st => st

/-- Compress one 16-word block into the hash state. -/
def shaCompress (h : List Nat) (block : List Nat) : List Nat :=
  let ws := (sched block.reverse 48).reverse
  let st := (shaK.zip ws).foldl shaRound h
  List.zipWith add32 h st

/-- Big-endian byte rendering of a value, `n` bytes. -/
def toBytesBE : Nat → Nat → List Nat
  | 0, _ => []
  | n + 1, x => (x >>> (8 * n)) % 256 :: toBytesBE n x

/-- Big-endian 32-bit word from 4 bytes. -/
def beWord : List Nat → Nat
  | [a, b, c, d] => ((a * 256 + b) * 256 + c) * 256 + d
  | _ => 0

/-- Split a list into chunks of `k` elements (fuelled by the list length). -/
def chunksF (k : Nat) : Nat → List Nat → List (List Nat)
  | 0, _ => []
  | _, [] => []
  | fuel + 1, l => l.take k :: chunksF k fuel (l.drop k)

def chunks (k : Nat) (l : List Nat) : List (List Nat) := chunksF k l.length l

/-- SHA-256 padding: `0x80`, zeros, then the 8-byte big-endian bit length. -/
def shaPad (msg : List Nat) : List Nat :=
  let len := msg.length
  let zeros := (119 - (len % 64)) % 64
  msg ++ [0x80] ++ List.replicate zeros 0 ++ toBytesBE 8 (len * 8)

/-- SHA-256 of a byte list: the 32 digest bytes. -/
def sha256 (msg : List Nat) : List Nat :=
  let blocks := (chunks 64 (shaPad msg)).map (fun b => (chunks 4 b).map beWord)
  let h := blocks.foldl shaCompress shaH0
  h.flatMap (toBytesBE 4)

/-- HMAC-SHA256 with byte-list key and message. -/
def hmacSha256 (key msg : List Nat) : List Nat :=
  let k0 := if 64 < key.length then sha256 key else key
  let k := k0 ++ List.replicate (64 - k0.length) 0
  let ipadded := k.map (fun b => b ^^^ 0x36)
  let opadded := k.map (fun b => b ^^^ 0x5c)
  sha256 (opadded ++ sha256 (ipadded ++ msg))

/-! ## Hex rendering and decoding -/

/-- ASCII code of the lowercase hex digit of `n < 16`. -/
def hexChrB (n : Nat) : Nat := if n < 10 then 48 + n else 87 + n

/-- Lowercase hex rendering of a byte list, as ASCII codes
(model of `digest('hex')`). -/
def bytesToHexBytes : List Nat → List Nat
  | [] => []
  | b :: t => hexChrB (b / 16) :: hexChrB (b % 16) :: bytesToHexBytes t

/-- Value of an ASCII hex digit (0-9, a-f, A-F). -/
def hexValB (c : Nat) : Option Nat :=
  if 48 ≤ c ∧ c ≤ 57 then some (c - 48)
  else if 97 ≤ c ∧ c ≤ 102 then some (c - 87)
  else if 65 ≤ c ∧ c ≤ 70 then some (c - 55)
  else none

/-- Model of `Buffer.from(s, 'hex')`: decode hex digit pairs, stopping at the
first invalid character; a trailing lone digit is dropped. -/
def nodeHexDecode : List Nat → List Nat
  | c1 :: c2 :: rest =>
    match hexValB c1, hexValB c2 with
    | some hi, some lo => (16 * hi + lo) :: nodeHexDecode rest
    | _, _ => []
  | _ => []

/-- Model of `crypto.timingSafeEqual`: throws (`Except.error`) when the byte
lengths differ, otherwise reports byte equality. -/
def timingSafeEqual (a b : List Nat) : Except String Bool :=
  if a.length = b.length then .ok (a == b)
  else .error "RangeError: Input buffers must have the same byte length"

/-- Bytes of an ASCII string (agrees with UTF-8 on ASCII input). -/
def strBytes (s : String) : List Nat := s.data.map Char.toNat

/-- ASCII string from a byte list. -/
def bytesToStr (l : List Nat) : String := ⟨l.map Char.ofNat⟩

/-! ## The payload parser of `verifyInitData` (routes.ts lines 15-21) -/

/-- Model of JS `String.prototype.split` with a one-character separator:
`"" ↦ [""]`, separators at the ends produce empty pieces. -/
def jsSplit {α : Type} [DecidableEq α] (sep : α) : List α → List (List α)
  | [] => [[]]
  | c :: rest =>
    match jsSplit sep rest with
    | h :: t => if c = sep then [] :: h :: t else (c :: h) :: t
    | [] => [[c]]

/-- `p.split('=')` destructured as `[k, v]`: the key is the part before the
first `'='`, the value the part between the first and second `'='`
(`none` when there is no `'='`); any further parts are discarded. -/
def kvOf (p : List Nat) : List Nat × Option (List Nat) :=
  match jsSplit 61 p with
  | [] => ([], none)
  | [k] => (k, none)
  | k :: v :: _ => (k, some v)

/-- Model of `decodeURIComponent` on bytes: `%XX` becomes the byte `XX`; a
`'%'` not followed by two hex digits raises `URIError`. (Re-validation of
multi-byte UTF-8 sequences is not modelled; all inputs of interest are
ASCII.) -/
def percentDecode : List Nat → Except String (List Nat)
  | [] => .ok []
  | 37 :: c1 :: c2 :: rest =>
    match hexValB c1, hexValB c2 with
    | some hi, some lo => (percentDecode rest).map (fun r => (16 * hi + lo) :: r)
    | _, _ => .error "URIError: URI malformed"
  | 37 :: _ => .error "URIError: URI malformed"
  | c :: rest => (percentDecode rest).map (fun r => c :: r)

/-- JS object assignment `kv[k] = v` on an association list: overwrite the
value if the key is present, otherwise append the pair. -/
def setKV : List (List Nat × List Nat) → List Nat → List Nat → List (List Nat × List Nat)
  | [], k, v => [(k, v)]
  | (k', v') :: rest, k, v =>
    if k' = k then (k', v) :: rest else (k', v') :: setKV rest k v

/-- JS object read `kv[k]`. -/
def getKV (kv : List (List Nat × List Nat)) (k : List Nat) : Option (List Nat) :=
  (kv.find? (fun e => e.1 == k)).map (fun e => e.2)

/-- One iteration of the `for (const [k, v] of params)` loop: an empty key is
skipped (`if (!k) continue`), otherwise the value (or `''` when missing) is
percent-decoded — raising aborts the whole loop — and stored. -/
def parseStep (kv : List (List Nat × List Nat)) (p : List Nat) :
    Except String (List (List Nat × List Nat)) :=
  let (k, vOpt) := kvOf p
  if k = [] then .ok kv
  else (percentDecode (vOpt.getD [])).map (setKV kv k)

/-- The key-value map built by `verifyInitData` from the raw payload
(`initData.split('&').map(p => p.split('='))` plus the loop above). -/
def parseKV (initData : List Nat) : Except String (List (List Nat × List Nat)) :=
  (jsSplit 38 initData).foldlM parseStep []

/-- The ASCII bytes of the key `"hash"`. -/
def hashKeyB : List Nat := [104, 97, 115, 104]

/-- Byte-wise lexicographic `≤` on byte lists (agrees with the JS default
sort order on ASCII keys). -/
def lexLeB : List Nat → List Nat → Bool
  | [], _ => true
  | _ :: _, [] => false
  | a :: as, b :: bs => if a < b then true else if b < a then false else lexLeB as bs

def insertSorted (x : List Nat) : List (List Nat) → List (List Nat)
  | [] => [x]
  | y :: ys => if lexLeB x y then x :: y :: ys else y :: insertSorted x ys

/-- Sort keys in ascending byte-wise lexicographic order (`keys.sort()`). -/
def sortKeys (l : List (List Nat)) : List (List Nat) := l.foldr insertSorted []

/-- The check string: non-`hash` keys sorted, rendered `key=value`, joined by
single newlines (routes.ts lines 26-28). -/
def checkString (kv : List (List Nat × List Nat)) : List Nat :=
  let keys := sortKeys ((kv.map Prod.fst).filter (fun k => !(k == hashKeyB)))
  List.intercalate [10] (keys.map (fun k => k ++ [61] ++ (getKV kv k).getD []))

/-- The body of `verifyInitData` (routes.ts lines 14-33): everything inside
the `try`. An `Except.error` models a raised exception. -/
def verifyCore (initData botToken : List Nat) : Except String Bool :=
  match parseKV initData with
  | .error e => .error e
  | .ok kv =>
    match getKV kv hashKeyB with
    | none => .ok false
    | some h =>
      if h = [] then .ok false
      else
        let secret := sha256 botToken
        let mac := hmacSha256 secret (checkString kv)
        timingSafeEqual (nodeHexDecode (bytesToHexBytes mac)) (nodeHexDecode h)

/-- `verifyInitData` (routes.ts lines 13-38): the `catch` turns any raised
exception into `false`. Note `kv['hash']` is also treated as missing when it
is the empty string (`if (!hash) return false`). -/
def verifyInitData (initData botToken : List Nat) : Bool :=
  match verifyCore initData botToken with
  | .ok b => b
  | .error _ => false

/-- The property claimed of a verified payload: it parses to a map whose
`hash` entry is literally the lowercase hex rendering of the HMAC of the
check string (keyed by the SHA-256 of the secret). -/
def hashIsLowercaseHexHmac (initData botToken : List Nat) : Prop :=
  ∃ kv, parseKV initData = .ok kv ∧
    getKV kv hashKeyB =
      some (bytesToHexBytes (hmacSha256 (sha256 botToken) (checkString kv)))

/-! ## JSON values (model of JS values produced by `JSON.parse`) -/

inductive Json where
  | null
  | bool (b : Bool)
  | num (n : Int)
  | str (s : String)
  | arr (xs : List Json)
  | obj (fields : List (String × Json))

/-- JS property read `v.k` on a parsed value: `none` models `undefined`. -/
def jget (v : Json) (k : String) : Option Json :=
  match v with
  | Json.obj fs => (fs.find? (fun p => p.1 == k)).map (fun p => p.2)
  | _ => none

/-- JS truthiness of a parsed value. -/
def jsTruthy : Json → Bool
  | Json.null => false
  | Json.bool b => b
  | Json.num n => n != 0
  | Json.str s => s != ""
  | Json.arr _ => true
  | Json.obj _ => true

/-- JS truthiness with `none` as `undefined`. -/
def jsTruthyOpt : Option Json → Bool
  | some v => jsTruthy v
  | none => false

mutual

/-- All object keys occurring anywhere in a JSON value, in order. -/
def jsonKeys : Json → List String
  | Json.obj fs => jsonKeysFields fs
  | Json.arr xs => jsonKeysList xs
  | _ => []

def jsonKeysFields : List (String × Json) → List String
  | [] => []
  | (k, v) :: rest => k :: (jsonKeys v ++ jsonKeysFields rest)

def jsonKeysList : List Json → List String
  | [] => []
  | v :: rest => jsonKeys v ++ jsonKeysList rest

end

/-! ## A model of `JSON.parse` (restricted to integral numbers) -/

def skipWs (cs : List Char) : List Char :=
  cs.dropWhile (fun c => c == ' ' || c == '\t' || c == '\n' || c == '\r')

def hexValC (c : Char) : Option Nat := hexValB c.toNat

/-- Parse the remainder of a JSON string literal (after the opening quote). -/
def jparseStrAux : List Char → Except String (List Char × List Char)
  | [] => .error "unterminated string"
  | '"' :: rest => .ok ([], rest)
  | '\\' :: 'u' :: a :: b :: c :: d :: rest =>
    match hexValC a, hexValC b, hexValC c, hexValC d with
    | some x, some y, some z, some t =>
      (jparseStrAux rest).map (fun p => (Char.ofNat (((x * 16 + y) * 16 + z) * 16 + t) :: p.1, p.2))
    | _, _, _, _ => .error "bad unicode escape"
  | '\\' :: e :: rest =>
    match e with
    | '"' => (jparseStrAux rest).map (fun p => ('"' :: p.1, p.2))
    | '\\' => (jparseStrAux rest).map (fun p => ('\\' :: p.1, p.2))
    | '/' => (jparseStrAux rest).map (fun p => ('/' :: p.1, p.2))
    | 'b' => (jparseStrAux rest).map (fun p => ('\x08' :: p.1, p.2))
    | 'f' => (jparseStrAux rest).map (fun p => ('\x0c' :: p.1, p.2))
    | 'n' => (jparseStrAux rest).map (fun p => ('\n' :: p.1, p.2))
    | 'r' => (jparseStrAux rest).map (fun p => ('\r' :: p.1, p.2))
    | 't' => (jparseStrAux rest).map (fun p => ('\t' :: p.1, p.2))
    | _ => .error "bad escape"
  | c :: rest => (jparseStrAux rest).map (fun p => (c :: p.1, p.2))

def natOfDigits (ds : List Char) : Nat :=
  ds.foldl (fun a c => a * 10 + (c.toNat - 48)) 0

/-- Parse a JSON number. Only integral numbers are modelled (sufficient for
the integral external identities this server consumes); a fraction or
exponent part is rejected. -/
def jparseNum (cs : List Char) : Except String (Json × List Char) :=
  let sb : Bool × List Char := match cs with
    | '-' :: rest => (true, rest)
    | _ => (false, cs)
  let ds := sb.2.takeWhile Char.isDigit
  let rest := sb.2.dropWhile Char.isDigit
  if ds = [] then .error "bad number"
  else match ds with
  | '0' :: _ :: _ => .error "leading zero"
  | _ =>
    match rest with
    | '.' :: _ => .error "non-integral number not modelled"
    | 'e' :: _ => .error "non-integral number not modelled"
    | 'E' :: _ => .error "non-integral number not modelled"
    | _ =>
      let n : Int := natOfDigits ds
      .ok (Json.num (if sb.1 then -n else n), rest)

mutual

def jparseVal : Nat → List Char → Except String (Json × List Char)
  | 0, _ => .error "fuel exhausted"
  | fuel + 1, cs =>
    match skipWs cs with
    | 'n' :: 'u' :: 'l' :: 'l' :: rest => .ok (Json.null, rest)
    | 't' :: 'r' :: 'u' :: 'e' :: rest => .ok (Json.bool true, rest)
    | 'f' :: 'a' :: 'l' :: 's' :: 'e' :: rest => .ok (Json.bool false, rest)
    | '"' :: rest => (jparseStrAux rest).map (fun p => (Json.str ⟨p.1⟩, p.2))
    | '[' :: rest =>
      match skipWs rest with
      | ']' :: r2 => .ok (Json.arr [], r2)
      | r2 => (jparseArr fuel r2).map (fun p => (Json.arr p.1, p.2))
    | '\x7b' :: rest =>
      match skipWs rest with
      | '\x7d' :: r2 => .ok (Json.obj [], r2)
      | r2 => (jparseObj fuel r2).map (fun p => (Json.obj p.1, p.2))
    | c :: rest =>
      if c = '-' || c.isDigit then jparseNum (c :: rest) else .error "unexpected token"
    | [] => .error "unexpected end of input"

def jparseArr : Nat → List Char → Except String (List Json × List Char)
  | 0, _ => .error "fuel exhausted"
  | fuel + 1, cs =>
    match jparseVal fuel cs with
    | .error e => .error e
    | .ok (v, r) =>
      match skipWs r with
      | ',' :: r2 => (jparseArr fuel r2).map (fun p => (v :: p.1, p.2))
      | ']' :: r2 => .ok ([v], r2)
      | _ => .error "expected comma or close bracket"

def jparseObj : Nat → List Char → Except String (List (String × Json) × List Char)
  | 0, _ => .error "fuel exhausted"
  | fuel + 1, cs =>
    match skipWs cs with
    | '"' :: rest =>
      match jparseStrAux rest with
      | .error e => .error e
      | .ok (k, r) =>
        match skipWs r with
        | ':' :: r2 =>
          match jparseVal fuel r2 with
          | .error e => .error e
          | .ok (v, r3) =>
            match skipWs r3 with
            | ',' :: r4 => (jparseObj fuel r4).map (fun p => ((⟨k⟩, v) :: p.1, p.2))
            | '\x7d' :: r4 => .ok ([(⟨k⟩, v)], r4)
            | _ => .error "expected comma or close brace"
        | _ => .error "expected colon"
    | _ => .error "expected key"

end

/-- Model of `JSON.parse` (integral numbers only; raw control characters in
strings are accepted rather than rejected). -/
def jparse (s : String) : Except String Json :=
  match jparseVal (2 * s.length + 2) s.data with
  | .ok (j, rest) => if skipWs rest = [] then .ok j else .error "unexpected trailing characters"
  | .error e => .error e

/-! ## A model of `querystring.parse` (used by `parseInitData`) -/

/-- Lenient decoding used by `querystring.parse`: `'+'` becomes a space,
valid `%XX` becomes the byte `XX`, an invalid `'%'` is kept literally. -/
def qsDecode : List Char → List Char
  | [] => []
  | '+' :: rest => ' ' :: qsDecode rest
  | '%' :: c1 :: c2 :: rest =>
    match hexValC c1, hexValC c2 with
    | some hi, some lo => Char.ofNat (16 * hi + lo) :: qsDecode rest
    | _, _ => '%' :: qsDecode (c1 :: c2 :: rest)
  | c :: rest => c :: qsDecode rest

/-- The key-value pairs of `querystring.parse`: split on `'&'`, skip empty
segments, split each segment at the first `'='` (the whole remainder is the
value), decode keys and values. (The default 1000-key limit of
`querystring.parse` is not modelled.) -/
def qsPairs (s : String) : List (String × String) :=
  ((jsSplit '&' s.data).filter (fun p => !p.isEmpty)).map (fun p =>
    let k := p.takeWhile (fun c => c ≠ '=')
    let v := (p.dropWhile (fun c => c ≠ '=')).drop 1
    (⟨qsDecode k⟩, ⟨qsDecode v⟩))

/-- All values bound to key `k`. A JS read of `parsed[k]` yields a string
exactly when this list is a singleton (duplicates become an array). -/
def qsAll (s : String) (k : String) : List String :=
  ((qsPairs s).filter (fun p => p.1 == k)).map (fun p => p.2)

/-! ## A model of `BigInt(x)` -/

mutual

/-- JS `String(v)` as used by array-to-primitive coercion: `null` renders as
the empty string inside arrays, arrays join their elements with commas,
objects render as `[object Object]`. -/
def jsElemStr : Json → String
  | Json.null => ""
  | Json.bool true => "true"
  | Json.bool false => "false"
  | Json.num n => toString n
  | Json.str s => s
  | Json.arr xs => jsElemList xs
  | Json.obj _ => "[object Object]"

def jsElemList : List Json → String
  | [] => ""
  | [x] => jsElemStr x
  | x :: rest => jsElemStr x ++ "," ++ jsElemList rest

end

def isWsChar (c : Char) : Bool :=
  c == ' ' || c == '\t' || c == '\n' || c == '\r' || c == '\x0b' || c == '\x0c'

def natOfHexDigits (ds : List Char) : Nat :=
  ds.foldl (fun a c => a * 16 + (hexValC c).getD 0) 0

def natOfOctDigits (ds : List Char) : Nat :=
  ds.foldl (fun a c => a * 8 + (c.toNat - 48)) 0

def natOfBinDigits (ds : List Char) : Nat :=
  ds.foldl (fun a c => a * 2 + (c.toNat - 48)) 0

/-- JS `String.prototype.trim`: strip leading and trailing whitespace
(ASCII whitespace modelled). -/
def jsTrim (s : String) : String :=
  ⟨((s.data.dropWhile isWsChar).reverse.dropWhile isWsChar).reverse⟩

def decIntOfDigits (ds : List Char) : Except String Int :=
  if ds ≠ [] ∧ ds.all Char.isDigit then .ok (natOfDigits ds : Nat)
  else .error "SyntaxError: Cannot convert string to a BigInt"

/-- JS `BigInt` on a string: trimmed; empty means 0; decimal with optional
sign, or unsigned `0x`/`0o`/`0b` forms; anything else raises `SyntaxError`. -/
def bigIntOfStr (s : String) : Except String Int :=
  let t := jsTrim s
  if t = "" then .ok 0
  else
    match t.data with
    | '0' :: 'x' :: ds =>
      if ds ≠ [] ∧ ds.all (fun c => (hexValC c).isSome) then .ok (natOfHexDigits ds : Nat)
      else .error "SyntaxError: Cannot convert string to a BigInt"
    | '0' :: 'X' :: ds =>
      if ds ≠ [] ∧ ds.all (fun c => (hexValC c).isSome) then .ok (natOfHexDigits ds : Nat)
      else .error "SyntaxError: Cannot convert string to a BigInt"
    | '0' :: 'o' :: ds =>
      if ds ≠ [] ∧ ds.all (fun c => 48 ≤ c.toNat ∧ c.toNat ≤ 55) then .ok (natOfOctDigits ds : Nat)
      else .error "SyntaxError: Cannot convert string to a BigInt"
    | '0' :: 'O' :: ds =>
      if ds ≠ [] ∧ ds.all (fun c => 48 ≤ c.toNat ∧ c.toNat ≤ 55) then .ok (natOfOctDigits ds : Nat)
      else .error "SyntaxError: Cannot convert string to a BigInt"
    | '0' :: 'b' :: ds =>
      if ds ≠ [] ∧ ds.all (fun c => c = '0' ∨ c = '1') then .ok (natOfBinDigits ds : Nat)
      else .error "SyntaxError: Cannot convert string to a BigInt"
    | '0' :: 'B' :: ds =>
      if ds ≠ [] ∧ ds.all (fun c => c = '0' ∨ c = '1') then .ok (natOfBinDigits ds : Nat)
      else .error "SyntaxError: Cannot convert string to a BigInt"
    | '+' :: ds => decIntOfDigits ds
    | '-' :: ds => (decIntOfDigits ds).map Int.neg
    | ds => decIntOfDigits ds

/-- JS `BigInt(v)` on a parsed JSON value: integral numbers and booleans
convert; strings parse as above; `null` raises `TypeError`; arrays and plain
objects go through string coercion first. Any `Except.error` models a raised
exception. -/
def bigIntJson (v : Json) : Except String Int :=
  match v with
  | Json.num n => .ok n
  | Json.bool true => .ok 1
  | Json.bool false => .ok 0
  | Json.str s => bigIntOfStr s
  | Json.null => .error "TypeError: Cannot convert null to a BigInt"
  | Json.arr xs => bigIntOfStr (jsElemList xs)
  | Json.obj _ => bigIntOfStr "[object Object]"

/-! ## The persistence layer (spec-modelled) -/

/-- Modelled from the spec: the User row of the abstract store (spec section 3).
`id` is the internal serial id (positive), `tgId` the immutable external
numeric identity, `anonName` the generated pseudonym, `status` one of
pending/approved/rejected, `createdAt` a timestamp. -/
structure User where
  id : Nat
  tgId : Int
  username : Option Json
  anonName : String
  status : String
  createdAt : Nat

/-- Modelled from the spec: a Room row (spec section 3). -/
structure Room where
  id : Nat
  name : String
deriving DecidableEq

/-- Modelled from the spec: a Message row (spec section 3); insertion order
is chronological order. -/
structure Message where
  id : Nat
  content : String
  userId : Nat
  roomId : Nat
  createdAt : Nat
deriving DecidableEq

/-- Modelled from the spec: the abstract store behind `./storage` (not part
of the provided sources), with serial id counters and a clock supplying
`createdAt` values. -/
structure Storage where
  users : List User
  rooms : List Room
  messages : List Message
  globalRoom : Option Room
  nextUserId : Nat
  nextRoomId : Nat
  nextMessageId : Nat
  now : Nat

/-- Modelled from the spec: `getUserByTgId` (spec section 6). -/
def getUserByTgId (st : Storage) (t : Int) : Option User :=
  st.users.find? (fun u => u.tgId == t)

/-- Modelled from the spec: `createUser` (spec section 6); assigns the next
serial id and the current clock value, then appends the row. -/
def createUser (st : Storage) (t : Int) (uname : Option Json) (anon : String)
    (status : String) : User × Storage :=
  let u : User := ⟨st.nextUserId, t, uname, anon, status, st.now⟩
  (u, { st with users := st.users ++ [u], nextUserId := st.nextUserId + 1, now := st.now + 1 })

/-- Modelled from the spec: `getUserById` (spec section 6). -/
def getUserById (st : Storage) (n : Nat) : Option User :=
  st.users.find? (fun u => u.id == n)

/-- Modelled from the spec: `getOrCreateGlobalRoom` (spec section 6),
idempotent lazily-created single room. -/
def getOrCreateGlobalRoom (st : Storage) : Room × Storage :=
  match st.globalRoom with
  | some r => (r, st)
  | none =>
    let r : Room := ⟨st.nextRoomId, "global"⟩
    (r, { st with rooms := st.rooms ++ [r], globalRoom := some r,
                  nextRoomId := st.nextRoomId + 1 })

/-- Modelled from the spec: `getMessagesByRoomId` (spec section 6): the most
recent `limit` messages of the room in chronological ascending order, each
joined with its author row. -/
def getMessagesByRoomId (st : Storage) (rid : Nat) (limit : Nat) :
    List (Message × Option User) :=
  let ms := st.messages.filter (fun m => m.roomId == rid)
  (ms.drop (ms.length - limit)).map (fun m => (m, getUserById st m.userId))

/-- Modelled from the spec: `createMessage` (spec section 6). -/
def createMessage (st : Storage) (content : String) (uid rid : Nat) : Message × Storage :=
  let m : Message := ⟨st.nextMessageId, content, uid, rid, st.now⟩
  (m, { st with messages := st.messages ++ [m], nextMessageId := st.nextMessageId + 1,
                now := st.now + 1 })

/-! ## The Auth Gateway (`POST /api/auth`, routes.ts lines 59-121) -/

structure Resp where
  status : Nat
  body : Json

def errBody (msg : String) : Json := Json.obj [("error", Json.str msg)]

/-- The 200 response body (routes.ts lines 107-115): only the internal id,
pseudonym, status and creation time are rendered. -/
def respOkBody (u : User) : Json :=
  Json.obj [("user", Json.obj [("id", Json.num u.id), ("anonName", Json.str u.anonName),
                               ("status", Json.str u.status), ("createdAt", Json.num u.createdAt)]),
            ("status", Json.str u.status)]

def anonNamePool : List String := ["User", "Anon", "Guest", "Member"]

/-- `generateAnonName` (routes.ts lines 40-45) with the two random draws
passed explicitly: a pool word and a 4-digit suffix in 1000..9999. -/
def generateAnonName (r1 r2 : Nat) : String :=
  anonNamePool.getD (r1 % 4) "User" ++ toString (r2 % 9000 + 1000)

/-- `userData`: the `user` field of `querystring.parse(initData)` when it is
a present, non-empty single string that parses as JSON; otherwise `none`
(routes.ts lines 79-88). -/
def parsedUser (s : String) : Option Json :=
  match qsAll s "user" with
  | [v] =>
    if v = "" then none
    else
      match jparse v with
      | .ok j => some j
      | .error _ => none
  | _ => none

/-- `userData.username || null` (routes.ts line 101): the `username` field
when truthy, else null. -/
def unameOf (j : Json) : Option Json :=
  match jget j "username" with
  | some w => if jsTruthy w then some w else none
  | none => none

/-- The `POST /api/auth` handler (routes.ts lines 59-121). The two `Nat`
parameters are the random draws of `generateAnonName`. A truthy non-string
`initData` reaches `verifyInitData`, where `initData.split` raises a
`TypeError` that the verifier's own catch converts to `false`, hence 401. -/
def authHandler (body : Json) (botToken : String) (r1 r2 : Nat) (st : Storage) :
    Resp × Storage :=
  match jget body "initData" with
  | none => (⟨400, errBody "initData required"⟩, st)
  | some v =>
    if jsTruthy v = false then (⟨400, errBody "initData required"⟩, st)
    else if botToken = "" then (⟨500, errBody "Bot token not configured"⟩, st)
    else
      match v with
      | Json.str s =>
        if verifyInitData (strBytes s) (strBytes botToken) = false then
          (⟨401, errBody "Invalid initData"⟩, st)
        else
          match parsedUser s with
          | none => (⟨400, errBody "Invalid user data in initData"⟩, st)
          | some j =>
            if (jsTruthy j && jsTruthyOpt (jget j "id")) = false then
              (⟨400, errBody "Invalid user data in initData"⟩, st)
            else
              match bigIntJson ((jget j "id").getD Json.null) with
              | .error _ => (⟨500, errBody "Authentication failed"⟩, st)
              | .ok tg =>
                match getUserByTgId st tg with
                | some u => (⟨200, respOkBody u⟩, st)
                | none =>
                  let cu := createUser st tg (unameOf j) (generateAnonName r1 r2) "pending"
                  (⟨200, respOkBody cu.1⟩, cu.2)
      | _ => (⟨401, errBody "Invalid initData"⟩, st)

/-- The external-identity extraction performed by the successful path of
`authHandler`: the `user` field of the payload, its truthiness checks, and
the `BigInt` conversion of its `id`. -/
def authTgId (body : Json) : Option Int :=
  match jget body "initData" with
  | some (Json.str s) =>
    match parsedUser s with
    | some j =>
      if (jsTruthy j && jsTruthyOpt (jget j "id")) = false then none
      else
        match bigIntJson ((jget j "id").getD Json.null) with
        | .ok t => some t
        | .error _ => none
    | none => none
  | _ => none

/-- The `username` value the successful creation path of `authHandler`
stores for a new user. -/
def authUname (body : Json) : Option Json :=
  match jget body "initData" with
  | some (Json.str s) =>
    match parsedUser s with
    | some j => unameOf j
    | none => none
  | _ => none

/-! ## The Connection Session and Broadcast Hub (websocket.ts) -/

/-- Per-connection state: `isOpen` models `readyState === OPEN`, the other
two fields are the `userId`/`userStatus` properties set by `handleAuth`. -/
structure Session where
  isOpen : Bool
  userId : Option Nat
  userStatus : Option String
deriving DecidableEq

/-- A rendered message as sent over the wire. -/
structure MsgView where
  id : Nat
  content : String
  createdAt : Nat
  author : Option (Nat × String)
deriving DecidableEq

/-- Server-to-client events. -/
inductive OutEvent where
  | authError (msg : String)
  | authSuccess (uid : Nat) (anonName : String) (status : String) (roomId : Nat)
  | chatHistory (msgs : List MsgView)
  | newMessage (m : MsgView)
  | joinedRoom (roomId : Nat) (roomName : String)
  | errorEv (msg : String)
deriving DecidableEq

/-- `!v` truthiness of the `userId` session property: absent or `0` is
falsy. -/
def truthyNat : Option Nat → Bool
  | some n => n != 0
  | none => false

def msgView (p : Message × Option User) : MsgView :=
  ⟨p.1.id, p.1.content, p.1.createdAt, p.2.map (fun u => (u.id, u.anonName))⟩

/-- `storage.getUserById(userId)` where `userId` is a raw JSON field: only a
non-negative numeric id can match a row (spec-modelled lookup by numeric
id). -/
def getUserByIdJ (st : Storage) (v : Json) : Option User :=
  match v with
  | Json.num n => if 0 ≤ n then getUserById st n.toNat else none
  | _ => none

/-- `handleAuth` (websocket.ts lines 54-120): binds `userId`/`userStatus`
before the approval check, so a non-approved user remains bound; on success
emits auth_success then chat_history (the 50 most recent global-room
messages). -/
def handleAuth (s : Session) (m : Json) (st : Storage) :
    Session × List OutEvent × Storage :=
  match jget m "userId" with
  | none => (s, [OutEvent.authError "User ID required"], st)
  | some uidJ =>
    if jsTruthy uidJ = false then (s, [OutEvent.authError "User ID required"], st)
    else
      match getUserByIdJ st uidJ with
      | none => (s, [OutEvent.authError "User not found"], st)
      | some u =>
        let s' : Session := { s with userId := some u.id, userStatus := some u.status }
        if u.status ≠ "approved" then
          (s', [OutEvent.authError "User not approved for chat"], st)
        else
          let gr := getOrCreateGlobalRoom st
          let hist := getMessagesByRoomId gr.2 gr.1.id 50
          (s', [OutEvent.authSuccess u.id u.anonName u.status gr.1.id,
                OutEvent.chatHistory (hist.map msgView)], gr.2)

/-- The `roomId || globalRoom.id` choice; non-numeric room ids are not
modelled (no claim exercises them). -/
def roomIdArg (o : Option Json) (dflt : Nat) : Nat :=
  match o with
  | some (Json.num n) => if n = 0 then dflt else n.toNat
  | _ => dflt

/-- `handleSendMessage` (websocket.ts lines 122-182) up to the broadcast:
returns the events sent to the calling session, the broadcast payload (if
any), and the updated store. A non-string truthy `content` makes
`content.trim()` raise, which the handler's catch turns into the generic
failure event. -/
def handleSendMessage (s : Session) (m : Json) (st : Storage) :
    List OutEvent × Option MsgView × Storage :=
  if truthyNat s.userId = false ∨ s.userStatus ≠ some "approved" then
    ([OutEvent.errorEv "Not authenticated or not approved"], none, st)
  else
    match s.userId with
    | none => ([OutEvent.errorEv "Not authenticated or not approved"], none, st)
    | some uid =>
      match jget m "content" with
      | none => ([OutEvent.errorEv "Message content required"], none, st)
      | some Json.null => ([OutEvent.errorEv "Message content required"], none, st)
      | some (Json.str c) =>
        if jsTrim c = "" then ([OutEvent.errorEv "Message content required"], none, st)
        else
          let gr := getOrCreateGlobalRoom st
          let target := roomIdArg (jget m "roomId") gr.1.id
          let cm := createMessage gr.2 (jsTrim c) uid target
          let author := getUserById cm.2 uid
          ([], some ⟨cm.1.id, cm.1.content, cm.1.createdAt,
                     author.map (fun u => (u.id, u.anonName))⟩, cm.2)
      | some _ => ([OutEvent.errorEv "Failed to send message"], none, st)

/-- The broadcast filter (websocket.ts lines 167-173): open socket, truthy
`userId`, cached status `approved`. -/
def eligible (s : Session) : Bool :=
  s.isOpen && truthyNat s.userId && (s.userStatus == some "approved")

/-- Indices of sessions the Broadcast Hub delivers to. -/
def eligibleIdx (ss : List Session) : List Nat :=
  (List.range ss.length).filter (fun j =>
    match ss.get? j with
    | some s => eligible s
    | none => false)

/-- The shared connection registry plus the store. -/
structure World where
  sessions : List Session
  storage : Storage

/-- Connection-level events driving the system. -/
inductive Ev where
  | connect
  | disconnect (i : Nat)
  | wsMsg (i : Nat) (m : Json)

def closeSession (s : Session) : Session := { s with isOpen := false }

/-- Whether an inbound frame dispatches to `handleAuth`. -/
def isAuthMsg (m : Json) : Bool :=
  match jget m "type" with
  | some (Json.str t) => t == "auth"
  | _ => false

/-- The `ws.on('message')` switch of websocket.ts lines 17-47 for an open
session `s` at index `i`: dispatch on the `type` field (a JS switch compares
the string), collecting the outputs tagged with the index of the receiving
session. -/
def stepDispatch (w : World) (i : Nat) (m : Json) (s : Session) :
    World × List (Nat × OutEvent) :=
  match jget m "type" with
  | some (Json.str t) =>
    if t = "auth" then
      let r := handleAuth s m w.storage
      (⟨w.sessions.set i r.1, r.2.2⟩, r.2.1.map (fun ev => (i, ev)))
    else if t = "send_message" then
      let r := handleSendMessage s m w.storage
      let outs := r.1.map (fun ev => (i, ev)) ++
        (match r.2.1 with
         | some v => (eligibleIdx w.sessions).map (fun j => (j, OutEvent.newMessage v))
         | none => [])
      (⟨w.sessions, r.2.2⟩, outs)
    else if t = "join_room" then
      let gr := getOrCreateGlobalRoom w.storage
      (⟨w.sessions, gr.2⟩, [(i, OutEvent.joinedRoom gr.1.id "Общий чат")])
    else (w, [(i, OutEvent.errorEv "Unknown message type")])
  | _ => (w, [(i, OutEvent.errorEv "Unknown message type")])

/-- One dispatch step of the server: connection creation, disconnection, or
an inbound frame handled by `stepDispatch`. -/
def step (w : World) (e : Ev) : World × List (Nat × OutEvent) :=
  match e with
  | Ev.connect => (⟨w.sessions ++ [⟨true, none, none⟩], w.storage⟩, [])
  | Ev.disconnect i =>
    match w.sessions.get? i with
    | some s => (⟨w.sessions.set i (closeSession s), w.storage⟩, [])
    | none => (w, [])
  | Ev.wsMsg i m =>
    match w.sessions.get? i with
    | none => (w, [])
    | some s =>
      if s.isOpen = false then (w, [])
      else stepDispatch w i m s

/-- Run a list of events, collecting all outputs. -/
def runEvents (w : World) : List Ev → World × List (Nat × OutEvent)
  | [] => (w, [])
  | e :: rest =>
    let r := step w e
    let r2 := runEvents r.1 rest
    (r2.1, r.2 ++ r2.2)

/-- Store well-formedness: serial user ids are positive (spec section 3:
serial ids; modelled from the spec) and messages are chronologically
ordered, all dated before the clock. -/
def StorageWF (st : Storage) : Prop :=
  (∀ u ∈ st.users, 1 ≤ u.id) ∧ 1 ≤ st.nextUserId ∧
  st.messages.Pairwise (fun a b => a.createdAt ≤ b.createdAt) ∧
  (∀ m ∈ st.messages, m.createdAt < st.now)

/-- Session well-formedness: a bound user id is positive (it was copied from
a stored user row). -/
def SessionsWF (w : World) : Prop :=
  ∀ s ∈ w.sessions, ∀ n, s.userId = some n → 1 ≤ n

/-- Worlds reachable from a fresh server (no sessions) over a well-formed
store. -/
inductive Reachable : World → Prop where
  | init (st : Storage) : StorageWF st → Reachable ⟨[], st⟩
  | step (w : World) (e : Ev) : Reachable w → Reachable (step w e).1

/-! ## Concrete inputs used by counterexamples and witnesses -/

/-- Uppercase an ASCII letter byte. -/
def upperByte (c : Nat) : Nat := if 97 ≤ c ∧ c ≤ 122 then c - 32 else c

def tokA : List Nat := strBytes "secret"

/-- The HMAC digest of the check string `a=1` under `tokA`. -/
def macA : List Nat := hmacSha256 (sha256 tokA) (strBytes "a=1")

/-- The UPPERCASE hex rendering of `macA`. -/
def upperHexA : List Nat := (bytesToHexBytes macA).map upperByte

/-- A payload signing `a=1` whose `hash` value is uppercase hex. -/
def payloadA : List Nat := strBytes "a=1&hash=" ++ upperHexA

/-- The key-value map `payloadA` parses to. -/
def kvA : List (List Nat × List Nat) := [([97], [49]), (hashKeyB, upperHexA)]

/-- The correct lowercase hash for the check string `b=2` under `tokA`. -/
def hexB : List Nat := bytesToHexBytes (hmacSha256 (sha256 tokA) (strBytes "b=2"))

/-- A signed payload whose `user` field is `\x7b"id":42\x7d`, under the bot
token `tok0`. -/
def tok0 : String := "testbot"

def userStr42 : String := "\x7b\"id\":42\x7d"

def hash42 : List Nat :=
  bytesToHexBytes (hmacSha256 (sha256 (strBytes tok0)) (strBytes ("user=" ++ userStr42)))

def initData42 : String := "user=" ++ userStr42 ++ "&hash=" ++ bytesToStr hash42

def body42 : Json := Json.obj [("initData", Json.str initData42)]

def emptyStorage : Storage := ⟨[], [], [], none, 1, 1, 1, 0⟩

/-- First `POST /api/auth` call with `body42` on an empty store. -/
def authRun1 : Resp × Storage := authHandler body42 tok0 0 0 emptyStorage

/-- Second call with the same payload, on the store the first call left. -/
def authRun2 : Resp × Storage := authHandler body42 tok0 1 1 authRun1.2

/-- A validly signed payload whose user id is `0`. -/
def userStr0 : String := "\x7b\"id\":0\x7d"

def hash0 : List Nat :=
  bytesToHexBytes (hmacSha256 (sha256 (strBytes tok0)) (strBytes ("user=" ++ userStr0)))

def initData0 : String := "user=" ++ userStr0 ++ "&hash=" ++ bytesToStr hash0

def body0 : Json := Json.obj [("initData", Json.str initData0)]

/-- A validly signed payload whose user id is the non-numeric string
`"abc"`. -/
def userStrAbc : String := "\x7b\"id\":\"abc\"\x7d"

def hashAbc : List Nat :=
  bytesToHexBytes (hmacSha256 (sha256 (strBytes tok0)) (strBytes ("user=" ++ userStrAbc)))

def initDataAbc : String := "user=" ++ userStrAbc ++ "&hash=" ++ bytesToStr hashAbc

def bodyAbc : Json := Json.obj [("initData", Json.str initDataAbc)]

/-- A validly signed payload with no `user` field at all. -/
def hashA1 : List Nat :=
  bytesToHexBytes (hmacSha256 (sha256 (strBytes tok0)) (strBytes "a=1"))

def initDataA1 : String := "a=1&hash=" ++ bytesToStr hashA1

def bodyA1 : Json := Json.obj [("initData", Json.str initDataA1)]

/-- A validly signed payload whose `user` field is the JSON literal `0`
(parses, but is falsy). -/
def userStrLit0 : String := "0"

def hashLit0 : List Nat :=
  bytesToHexBytes (hmacSha256 (sha256 (strBytes tok0)) (strBytes ("user=" ++ userStrLit0)))

def initDataLit0 : String := "user=" ++ userStrLit0 ++ "&hash=" ++ bytesToStr hashLit0

def bodyLit0 : Json := Json.obj [("initData", Json.str initDataLit0)]

/-- A store holding a single approved user. -/
def stApproved : Storage := ⟨[⟨1, 7, none, "Guest1000", "approved", 0⟩], [], [], none, 2, 1, 1, 1⟩

def authMsg1 : Json := Json.obj [("type", Json.str "auth"), ("userId", Json.num 1)]

def authMsg2 : Json := Json.obj [("type", Json.str "auth"), ("userId", Json.num 2)]

def sendHi : Json := Json.obj [("type", Json.str "send_message"), ("content", Json.str "hi")]

/-- A world with one connected, authenticated, approved session. -/
def wA : World := (step (step ⟨[], stApproved⟩ Ev.connect).1 (Ev.wsMsg 0 authMsg1)).1

/-- A store holding a pending user (id 1) and an approved user (id 2). -/
def stPending : Storage :=
  ⟨[⟨1, 7, none, "Guest1000", "pending", 0⟩, ⟨2, 8, none, "Anon1001", "approved", 0⟩],
   [], [], none, 3, 1, 1, 1⟩

/-- A world where session 0 authenticated as the pending user. -/
def wP : World := (step (step ⟨[], stPending⟩ Ev.connect).1 (Ev.wsMsg 0 authMsg1)).1

/-- Connect a second session, authenticate it as the approved user, have it
send a message. -/
def evsP : List Ev := [Ev.connect, Ev.wsMsg 1 authMsg2, Ev.wsMsg 1 sendHi]

/-- A store with a global room and two messages, for the chat-history
replay. -/
def stMsgs : Storage :=
  ⟨[⟨1, 7, none, "Guest1000", "approved", 0⟩], [⟨1, "global"⟩],
   [⟨1, "a", 1, 1, 0⟩, ⟨2, "b", 1, 1, 1⟩], some ⟨1, "global"⟩, 2, 2, 3, 2⟩

/-! # Theorems -/

/-! ## Support lemmas: hex and SHA-256 structure -/

theorem hexValB_hexChrB (n : Nat) (h : n < 16) : hexValB (hexChrB n) = some n := by
  interval_cases n <;> rfl

theorem nodeHexDecode_render (l : List Nat) (h : ∀ b ∈ l, b < 256) :
    nodeHexDecode (bytesToHexBytes l) = l := by
  induction l with
  | nil => rfl
  | cons b t ih =>
    have hb : b < 256 := h b (List.mem_cons_self b t)
    have h1 : hexValB (hexChrB (b / 16)) = some (b / 16) := hexValB_hexChrB _ (by omega)
    have h2 : hexValB (hexChrB (b % 16)) = some (b % 16) := hexValB_hexChrB _ (by omega)
    have ht := ih (fun x hx => h x (List.mem_cons_of_mem b hx))
    have hv : 16 * (b / 16) + b % 16 = b := by omega
    simp only [bytesToHexBytes, nodeHexDecode, h1, h2, ht, hv]

theorem bytesToHexBytes_length (l : List Nat) :
    (bytesToHexBytes l).length = 2 * l.length := by
  induction l with
  | nil => rfl
  | cons b t ih => simp only [bytesToHexBytes, List.length_cons, ih]; omega

theorem toBytesBE_length (n x : Nat) : (toBytesBE n x).length = n := by
  induction n generalizing x with
  | zero => rfl
  | succ k ih => simp [toBytesBE, ih]

theorem toBytesBE_lt (n x : Nat) : ∀ b ∈ toBytesBE n x, b < 256 := by
  induction n generalizing x with
  | zero => simp [toBytesBE]
  | succ k ih =>
    intro b hb
    simp only [toBytesBE, List.mem_cons] at hb
    rcases hb with hb | hb
    · omega
    · exact ih _ b hb

theorem shaRound_length (st : List Nat) (kw : Nat × Nat) :
    (shaRound st kw).length = st.length := by
  unfold shaRound
  split <;> rfl

theorem foldl_shaRound_length (l : List (Nat × Nat)) (st : List Nat) :
    (l.foldl shaRound st).length = st.length := by
  induction l generalizing st with
  | nil => rfl
  | cons a t ih => rw [List.foldl_cons, ih, shaRound_length]

theorem shaCompress_length (h b : List Nat) :
    (shaCompress h b).length = h.length := by
  unfold shaCompress
  simp [List.length_zipWith, foldl_shaRound_length]

theorem foldl_shaCompress_length (bs : List (List Nat)) (h : List Nat) :
    (bs.foldl shaCompress h).length = h.length := by
  induction bs generalizing h with
  | nil => rfl
  | cons a t ih => rw [List.foldl_cons, ih, shaCompress_length]

theorem flatMap_toBytes_length (l : List Nat) :
    (l.flatMap (toBytesBE 4)).length = 4 * l.length := by
  induction l with
  | nil => rfl
  | cons b t ih =>
    simp only [List.flatMap_cons, List.length_append, toBytesBE_length, ih, List.length_cons]
    omega

theorem sha256_length (msg : List Nat) : (sha256 msg).length = 32 := by
  simp only [sha256]
  rw [flatMap_toBytes_length, foldl_shaCompress_length]
  rfl

theorem sha256_lt (msg : List Nat) : ∀ b ∈ sha256 msg, b < 256 := by
  intro b hb
  simp only [sha256, List.mem_flatMap] at hb
  obtain ⟨a, _, hb⟩ := hb
  exact toBytesBE_lt 4 a b hb

theorem hmacSha256_length (k m : List Nat) : (hmacSha256 k m).length = 32 := by
  simp only [hmacSha256]
  exact sha256_length _

theorem hmacSha256_lt (k m : List Nat) : ∀ b ∈ hmacSha256 k m, b < 256 := by
  simp only [hmacSha256]
  exact sha256_lt _

/-- `nodeHexDecode` undoes the hex rendering of an HMAC digest. -/
theorem nodeHexDecode_hmac (k m : List Nat) :
    nodeHexDecode (bytesToHexBytes (hmacSha256 k m)) = hmacSha256 k m :=
  nodeHexDecode_render _ (hmacSha256_lt k m)

theorem timingSafeEqual_ok_true (a b : List Nat) :
    timingSafeEqual a b = .ok true ↔ a = b := by
  unfold timingSafeEqual
  split
  · simp [beq_iff_eq]
  · rename_i hne
    constructor
    · intro h; exact absurd h (by simp)
    · intro h; subst h; exact absurd rfl hne

/-- Evaluating the `try` result: the catch maps errors to `false`. -/
theorem verify_eq_core (d t : List Nat) :
    verifyInitData d t = true ↔ verifyCore d t = .ok true := by
  unfold verifyInitData
  cases h : verifyCore d t with
  | ok b => cases b <;> simp
  | error e => simp

/-! ## Reduction lemmas for `verifyCore` -/

theorem verifyCore_err (d t : List Nat) (e : String) (hp : parseKV d = .error e) :
    verifyCore d t = .error e := by
  unfold verifyCore
  rw [hp]

theorem verifyCore_noHash (d t : List Nat) (kv : List (List Nat × List Nat))
    (hp : parseKV d = .ok kv) (hg : getKV kv hashKeyB = none) :
    verifyCore d t = .ok false := by
  unfold verifyCore
  rw [hp]
  show (match getKV kv hashKeyB with
        | none => Except.ok false
        | some h =>
          if h = [] then Except.ok false
          else timingSafeEqual
            (nodeHexDecode (bytesToHexBytes (hmacSha256 (sha256 t) (checkString kv))))
            (nodeHexDecode h)) = _
  rw [hg]

theorem verifyCore_emptyHash (d t : List Nat) (kv : List (List Nat × List Nat))
    (hp : parseKV d = .ok kv) (hg : getKV kv hashKeyB = some []) :
    verifyCore d t = .ok false := by
  unfold verifyCore
  rw [hp]
  show (match getKV kv hashKeyB with
        | none => Except.ok false
        | some h =>
          if h = [] then Except.ok false
          else timingSafeEqual
            (nodeHexDecode (bytesToHexBytes (hmacSha256 (sha256 t) (checkString kv))))
            (nodeHexDecode h)) = _
  rw [hg]
  rfl

theorem verifyCore_hash (d t : List Nat) (kv : List (List Nat × List Nat)) (h : List Nat)
    (hp : parseKV d = .ok kv) (hg : getKV kv hashKeyB = some h) (hne : h ≠ []) :
    verifyCore d t = timingSafeEqual
      (nodeHexDecode (bytesToHexBytes (hmacSha256 (sha256 t) (checkString kv))))
      (nodeHexDecode h) := by
  unfold verifyCore
  rw [hp]
  show (match getKV kv hashKeyB with
        | none => Except.ok false
        | some h =>
          if h = [] then Except.ok false
          else timingSafeEqual
            (nodeHexDecode (bytesToHexBytes (hmacSha256 (sha256 t) (checkString kv))))
            (nodeHexDecode h)) = _
  rw [hg]
  show (if h = [] then Except.ok false
        else timingSafeEqual
          (nodeHexDecode (bytesToHexBytes (hmacSha256 (sha256 t) (checkString kv))))
          (nodeHexDecode h)) = _
  rw [if_neg hne]

/-! ## C1 -/

/-- C1 (amended): `verify` returns true iff the payload parses without a
decode exception to a key-value map containing a non-empty `hash` pair whose
value, hex-decoded with Node Buffer semantics, equals the 32 HMAC-SHA256
digest bytes (keyed by the SHA-256 of the raw secret) of the check string
(sorted remaining keys rendered `key=value`, newline-joined). Equality with
the lowercase hex rendition is sufficient but not necessary. -/
theorem C1_verify_iff (d t : List Nat) :
    verifyInitData d t = true ↔
      ∃ kv h, parseKV d = .ok kv ∧ getKV kv hashKeyB = some h ∧ h ≠ [] ∧
        nodeHexDecode h = hmacSha256 (sha256 t) (checkString kv) := by
  rw [verify_eq_core]
  cases hp : parseKV d with
  | error e =>
    rw [verifyCore_err d t e hp]
    constructor
    · intro hcontra; exact Except.noConfusion hcontra
    · rintro ⟨kv, h, hkv, -⟩; exact Except.noConfusion hkv
  | ok kv =>
    cases hg : getKV kv hashKeyB with
    | none =>
      rw [verifyCore_noHash d t kv hp hg]
      constructor
      · intro hcontra; simp at hcontra
      · rintro ⟨kv', h', hkv', hg', -⟩
        obtain rfl : kv = kv' := by injection hkv'
        rw [hg] at hg'
        exact Option.noConfusion hg'
    | some h =>
      by_cases hemp : h = []
      · subst hemp
        rw [verifyCore_emptyHash d t kv hp hg]
        constructor
        · intro hcontra; simp at hcontra
        · rintro ⟨kv', h', hkv', hg', hne', -⟩
          obtain rfl : kv = kv' := by injection hkv'
          rw [hg] at hg'
          obtain rfl : ([] : List Nat) = h' := by injection hg'
          exact absurd rfl hne'
      · rw [verifyCore_hash d t kv h hp hg hemp, nodeHexDecode_hmac, timingSafeEqual_ok_true]
        constructor
        · intro heq
          exact ⟨kv, h, rfl, hg, hemp, heq.symm⟩
        · rintro ⟨kv', h', hkv', hg', -, hdec'⟩
          obtain rfl : kv = kv' := by injection hkv'
          rw [hg] at hg'
          obtain rfl : h = h' := by injection hg'
          exact hdec'.symm

set_option maxRecDepth 1000000 in
/-- C1 counterexample: `payloadA` signs the check string `a=1` with the
UPPERCASE hex rendering of the correct digest. `verify` accepts it (the
comparison is on hex-decoded bytes), yet its `hash` value is not the
lowercase hexadecimal rendering of the HMAC, so the claim's "if and only if"
fails in the only-if direction. -/
theorem C1_counterexample :
    verifyInitData payloadA tokA = true ∧ ¬ hashIsLowercaseHexHmac payloadA tokA := by
  constructor
  · decide
  · rintro ⟨kv, hkv, hget⟩
    have hp : parseKV payloadA = .ok kvA := rfl
    rw [hp] at hkv
    obtain rfl : kvA = kv := by injection hkv
    revert hget
    decide

/-! ## C5 -/

/-- C5: every exception inside `verifyInitData`'s try block — modelled as
`verifyCore` returning `Except.error` — yields `false` (the function is
total, so nothing propagates); in particular a decoded `hash` whose byte
length differs from the 32-byte digest makes `timingSafeEqual` throw, and
`verify` returns `false`. -/
theorem C5_fail_closed :
    (∀ d t e, verifyCore d t = .error e → verifyInitData d t = false) ∧
    (∀ d t kv h, parseKV d = .ok kv → getKV kv hashKeyB = some h → h ≠ [] →
      (nodeHexDecode h).length ≠ 32 → verifyInitData d t = false) := by
  constructor
  · intro d t e he
    unfold verifyInitData
    rw [he]
  · intro d t kv h hp hg hne hlen
    have h32 := hmacSha256_length (sha256 t) (checkString kv)
    unfold verifyInitData
    rw [verifyCore_hash d t kv h hp hg hne, nodeHexDecode_hmac]
    unfold timingSafeEqual
    rw [if_neg (by omega :
      ¬ (hmacSha256 (sha256 t) (checkString kv)).length = (nodeHexDecode h).length)]

theorem C5_witness :
    verifyInitData (strBytes "a=%zz&hash=00") (strBytes "t") = false ∧
    verifyInitData (strBytes "a=1&hash=abcd") (strBytes "t") = false :=
  ⟨C5_fail_closed.1 _ _ "URIError: URI malformed" rfl,
   C5_fail_closed.2 _ _ [([97], [49]), (hashKeyB, [97, 98, 99, 100])] [97, 98, 99, 100]
     rfl rfl (by decide) (by decide)⟩

/-! ## C9 -/

set_option maxRecDepth 1000000 in
/-- C9 counterexample: the claim says an entry with an undecodable
percent-encoding is dropped while the rest is still parsed and verified, and
that `hexB` is the correct hash for the remaining entry `b=2` (second
conjunct); yet adding the malformed entry `a=%zz` makes the whole
verification fail rather than proceed (first conjunct). Also, an entry with
a missing value is kept with empty value, not dropped (third conjunct). -/
theorem C9_counterexample :
    verifyInitData (strBytes "a=%zz&b=2&hash=" ++ hexB) tokA = false ∧
    verifyInitData (strBytes "b=2&hash=" ++ hexB) tokA = true ∧
    parseKV (strBytes "a&b=2") = .ok [(strBytes "a", []), (strBytes "b", strBytes "2")] := by
  refine ⟨by decide, by decide, rfl⟩

/-- C9 (amended): during payload parsing, an entry with an empty key is
skipped silently; an entry with a missing value is kept with the empty
string as its value; an entry whose value has an undecodable
percent-encoding raises `URIError`, which aborts the entire parse, and any
parse exception makes `verify` return false (the well-formed entries are not
verified). -/
theorem C9_parse_behavior :
    (∀ kv p vOpt, kvOf p = ([], vOpt) → parseStep kv p = .ok kv) ∧
    (∀ kv p k, kvOf p = (k, none) → k ≠ [] → parseStep kv p = .ok (setKV kv k [])) ∧
    (∀ kv p k v e, kvOf p = (k, some v) → k ≠ [] → percentDecode v = .error e →
      parseStep kv p = .error e) ∧
    (∀ d t e, parseKV d = .error e → verifyInitData d t = false) := by
  refine ⟨?_, ?_, ?_, ?_⟩
  · intro kv p vOpt h
    unfold parseStep
    rw [h]
    rfl
  · intro kv p k h hk
    unfold parseStep
    rw [h]
    show (if k = [] then Except.ok kv
          else (percentDecode ((none : Option (List Nat)).getD [])).map (setKV kv k)) = _
    rw [if_neg hk]
    rfl
  · intro kv p k v e h hk hd
    unfold parseStep
    rw [h]
    show (if k = [] then Except.ok kv
          else (percentDecode ((some v).getD [])).map (setKV kv k)) = _
    rw [if_neg hk]
    show (percentDecode v).map (setKV kv k) = _
    rw [hd]
    rfl
  · intro d t e h
    unfold verifyInitData
    rw [verifyCore_err d t e h]

theorem C9_witness :
    parseStep [] [] = .ok [] ∧
    parseStep [] (strBytes "a") = .ok (setKV [] (strBytes "a") []) ∧
    parseStep [] (strBytes "a=%zz") = .error "URIError: URI malformed" ∧
    verifyInitData (strBytes "a=%zz") (strBytes "t") = false :=
  ⟨C9_parse_behavior.1 [] [] none rfl,
   C9_parse_behavior.2.1 [] (strBytes "a") (strBytes "a") rfl (by decide),
   C9_parse_behavior.2.2.1 [] (strBytes "a=%zz") (strBytes "a") (strBytes "%zz")
     "URIError: URI malformed" rfl (by decide) rfl,
   C9_parse_behavior.2.2.2 (strBytes "a=%zz") (strBytes "t") "URIError: URI malformed" rfl⟩

theorem find?_append_none {α : Type} (p : α → Bool) (l1 l2 : List α)
    (h : l1.find? p = none) : (l1 ++ l2).find? p = l2.find? p := by
  induction l1 with
  | nil => rfl
  | cons a tl ih =>
    cases hpa : p a with
    | true => simp [List.find?, hpa] at h
    | false =>
      simp only [List.find?, hpa, List.cons_append] at h ⊢
      exact ih h

/-- Characterization of a 200 response of the auth gateway: the external id
extraction succeeded, and the response renders either the found user (store
untouched) or the freshly created one. -/
theorem authHandler_ok (body : Json) (tok : String) (r1 r2 : Nat) (st : Storage)
    (resp : Resp) (st' : Storage)
    (hrun : authHandler body tok r1 r2 st = (resp, st')) (h200 : resp.status = 200) :
    ∃ t u, authTgId body = some t ∧ resp = ⟨200, respOkBody u⟩ ∧
      ((getUserByTgId st t = some u ∧ st' = st) ∨
       (getUserByTgId st t = none ∧
        (u, st') = createUser st t (authUname body) (generateAnonName r1 r2) "pending")) := by
  unfold authHandler at hrun
  split at hrun
  · injection hrun with h1 h2; subst h1; exact absurd h200 (by decide)
  · rename_i v heqInit
    split at hrun
    · injection hrun with h1 h2; subst h1; exact absurd h200 (by decide)
    · rename_i hTruthy
      split at hrun
      · injection hrun with h1 h2; subst h1; exact absurd h200 (by decide)
      · rename_i hTok
        split at hrun
        · rename_i s
          split at hrun
          · injection hrun with h1 h2; subst h1; exact absurd h200 (by decide)
          · rename_i hVerify
            split at hrun
            · injection hrun with h1 h2; subst h1; exact absurd h200 (by decide)
            · rename_i j hUser
              split at hrun
              · injection hrun with h1 h2; subst h1; exact absurd h200 (by decide)
              · rename_i hId
                split at hrun
                · injection hrun with h1 h2; subst h1; exact absurd h200 (by decide)
                · rename_i tg hBig
                  have hT : authTgId body = some tg := by
                    simp [authTgId, heqInit, hUser, hId, hBig]
                  split at hrun
                  · rename_i u hFind
                    injection hrun with h1 h2
                    subst h1; subst h2
                    exact ⟨tg, u, hT, rfl, Or.inl ⟨hFind, rfl⟩⟩
                  · rename_i hFind
                    simp only [] at hrun
                    injection hrun with h1 h2
                    subst h1; subst h2
                    refine ⟨tg, _, hT, rfl, Or.inr ⟨hFind, ?_⟩⟩
                    have hUn : authUname body = unameOf j := by
                      simp [authUname, heqInit, hUser]
                    rw [hUn]
        · injection hrun with h1 h2; subst h1; exact absurd h200 (by decide)

/-- C4: the auth gateway is idempotent on the external identity. -/
theorem C4_idempotent (b1 b2 : Json) (tok : String) (r1 r2 r3 r4 : Nat) (st : Storage)
    (resp1 resp2 : Resp) (st1 st2 : Storage) (t : Int)
    (h1 : authHandler b1 tok r1 r2 st = (resp1, st1))
    (h2 : authHandler b2 tok r3 r4 st1 = (resp2, st2))
    (hs1 : resp1.status = 200) (hs2 : resp2.status = 200)
    (ht1 : authTgId b1 = some t) (ht2 : authTgId b2 = some t) :
    st1.users.length ≤ st.users.length + 1 ∧ st2.users = st1.users ∧
    jget resp2.body "user" = jget resp1.body "user" := by
  obtain ⟨t1, u1, hT1, hR1, hC1⟩ := authHandler_ok b1 tok r1 r2 st resp1 st1 h1 hs1
  obtain ⟨t2, u2, hT2, hR2, hC2⟩ := authHandler_ok b2 tok r3 r4 st1 resp2 st2 h2 hs2
  have e1 : t1 = t := Option.some.inj (hT1.symm.trans ht1)
  have e2 : t2 = t := Option.some.inj (hT2.symm.trans ht2)
  rw [e1] at hC1
  rw [e2] at hC2
  rcases hC1 with ⟨hFind1, rfl⟩ | ⟨hNone1, hCreate1⟩
  · rcases hC2 with ⟨hFind2, rfl⟩ | ⟨hNone2, -⟩
    · obtain rfl : u1 = u2 := Option.some.inj (by rw [← hFind1, ← hFind2])
      exact ⟨by omega, rfl, by rw [hR1, hR2]⟩
    · rw [hFind1] at hNone2
      exact Option.noConfusion hNone2
  · have hu1 : u1 = ⟨st.nextUserId, t, authUname b1, generateAnonName r1 r2, "pending", st.now⟩ := by
      have := congrArg Prod.fst hCreate1
      simpa [createUser] using this
    have hst1 : st1.users = st.users ++ [u1] := by
      have := congrArg (fun p => p.2.users) hCreate1
      simp only [createUser] at this
      rw [this, hu1]
    have hFind2' : getUserByTgId st1 t = some u1 := by
      unfold getUserByTgId at hNone1 ⊢
      rw [hst1, find?_append_none _ _ _ hNone1]
      have : (u1.tgId == t) = true := by rw [hu1]; exact beq_self_eq_true t
      simp [List.find?, this]
    rcases hC2 with ⟨hFind2, rfl⟩ | ⟨hNone2, -⟩
    · obtain rfl : u1 = u2 := Option.some.inj (by rw [← hFind2', ← hFind2])
      refine ⟨?_, rfl, by rw [hR1, hR2]⟩
      rw [hst1]
      simp
    · rw [hFind2'] at hNone2
      exact Option.noConfusion hNone2

set_option maxRecDepth 1000000 in
theorem C4_witness :
    authRun1.2.users.length ≤ emptyStorage.users.length + 1 ∧
    authRun2.2.users = authRun1.2.users ∧
    jget authRun2.1.body "user" = jget authRun1.1.body "user" :=
  C4_idempotent body42 body42 tok0 0 0 1 1 emptyStorage authRun1.1 authRun2.1
    authRun1.2 authRun2.2 42 rfl rfl rfl rfl rfl rfl

/-- A verified payload with no usable `user` field yields the 400 response
and leaves the store untouched. -/
theorem authHandler_userFail_none (body : Json) (tok : String) (r1 r2 : Nat) (st : Storage)
    (s : String)
    (hInit : jget body "initData" = some (Json.str s)) (hs : s ≠ "") (htok : tok ≠ "")
    (hv : verifyInitData (strBytes s) (strBytes tok) = true)
    (hu : parsedUser s = none) :
    authHandler body tok r1 r2 st = (⟨400, errBody "Invalid user data in initData"⟩, st) := by
  have hTr : jsTruthy (Json.str s) = true := by simp [jsTruthy, hs]
  simp [authHandler, hInit, hTr, htok, hv, hu]

/-- A verified payload whose parsed `user` is falsy or has a falsy `id`
yields the 400 response and leaves the store untouched. -/
theorem authHandler_userFail_falsy (body : Json) (tok : String) (r1 r2 : Nat) (st : Storage)
    (s : String) (j : Json)
    (hInit : jget body "initData" = some (Json.str s)) (hs : s ≠ "") (htok : tok ≠ "")
    (hv : verifyInitData (strBytes s) (strBytes tok) = true)
    (hj : parsedUser s = some j)
    (hfalse : (jsTruthy j && jsTruthyOpt (jget j "id")) = false) :
    authHandler body tok r1 r2 st = (⟨400, errBody "Invalid user data in initData"⟩, st) := by
  have hTr : jsTruthy (Json.str s) = true := by simp [jsTruthy, hs]
  simp [authHandler, hInit, hTr, htok, hv, hj, hfalse]

/-- A verified payload whose truthy `id` raises in the `BigInt` conversion
yields the catch-all 500 response and leaves the store untouched. -/
theorem authHandler_bigint_error (body : Json) (tok : String) (r1 r2 : Nat) (st : Storage)
    (s : String) (j : Json) (e : String)
    (hInit : jget body "initData" = some (Json.str s)) (hs : s ≠ "") (htok : tok ≠ "")
    (hv : verifyInitData (strBytes s) (strBytes tok) = true)
    (hj : parsedUser s = some j)
    (htrue : (jsTruthy j && jsTruthyOpt (jget j "id")) = true)
    (hbig : bigIntJson ((jget j "id").getD Json.null) = .error e) :
    authHandler body tok r1 r2 st = (⟨500, errBody "Authentication failed"⟩, st) := by
  have hTr : jsTruthy (Json.str s) = true := by simp [jsTruthy, hs]
  simp [authHandler, hInit, hTr, htok, hv, hj, htrue, hbig]

/-- C7 (amended): for a request whose payload passes signature verification,
an absent or malformed `user` field — absent/duplicated/empty/unparseable
(`parsedUser = none`), or a falsy parsed value or falsy `id` — yields the
400 response; but a present, truthy `id` that the `BigInt` conversion cannot
parse (e.g. the string "abc") raises and yields the 500 catch-all instead of
a 400. -/
theorem C7_user_validation :
    (∀ body tok r1 r2 st s,
      jget body "initData" = some (Json.str s) → s ≠ "" → tok ≠ "" →
      verifyInitData (strBytes s) (strBytes tok) = true → parsedUser s = none →
      authHandler body tok r1 r2 st = (⟨400, errBody "Invalid user data in initData"⟩, st)) ∧
    (∀ body tok r1 r2 st s j,
      jget body "initData" = some (Json.str s) → s ≠ "" → tok ≠ "" →
      verifyInitData (strBytes s) (strBytes tok) = true → parsedUser s = some j →
      (jsTruthy j && jsTruthyOpt (jget j "id")) = false →
      authHandler body tok r1 r2 st = (⟨400, errBody "Invalid user data in initData"⟩, st)) ∧
    (∀ body tok r1 r2 st s j e,
      jget body "initData" = some (Json.str s) → s ≠ "" → tok ≠ "" →
      verifyInitData (strBytes s) (strBytes tok) = true → parsedUser s = some j →
      (jsTruthy j && jsTruthyOpt (jget j "id")) = true →
      bigIntJson ((jget j "id").getD Json.null) = .error e →
      authHandler body tok r1 r2 st = (⟨500, errBody "Authentication failed"⟩, st)) :=
  ⟨authHandler_userFail_none, authHandler_userFail_falsy, authHandler_bigint_error⟩

set_option maxRecDepth 1000000 in
set_option maxHeartbeats 4000000 in
/-- C7 counterexample: `initDataAbc` is validly signed and its `user` field
parses with the present but non-numeric-parseable id `"abc"`; the response
status is 500, not the claimed 400-equivalent. -/
theorem C7_counterexample :
    verifyInitData (strBytes initDataAbc) (strBytes tok0) = true ∧
    parsedUser initDataAbc = some (Json.obj [("id", Json.str "abc")]) ∧
    (authHandler bodyAbc tok0 0 0 emptyStorage).1.status = 500 :=
  ⟨by decide, rfl, by decide⟩

set_option maxRecDepth 1000000 in
set_option maxHeartbeats 4000000 in
theorem C7_witness :
    authHandler bodyA1 tok0 0 0 emptyStorage =
      (⟨400, errBody "Invalid user data in initData"⟩, emptyStorage) ∧
    authHandler bodyLit0 tok0 0 0 emptyStorage =
      (⟨400, errBody "Invalid user data in initData"⟩, emptyStorage) ∧
    authHandler bodyAbc tok0 0 0 emptyStorage =
      (⟨500, errBody "Authentication failed"⟩, emptyStorage) :=
  ⟨C7_user_validation.1 bodyA1 tok0 0 0 emptyStorage initDataA1
     rfl (by decide) (by decide) (by decide) rfl,
   C7_user_validation.2.1 bodyLit0 tok0 0 0 emptyStorage initDataLit0 (Json.num 0)
     rfl (by decide) (by decide) (by decide) rfl rfl,
   C7_user_validation.2.2 bodyAbc tok0 0 0 emptyStorage initDataAbc
     (Json.obj [("id", Json.str "abc")]) "SyntaxError: Cannot convert string to a BigInt"
     rfl (by decide) (by decide) (by decide) rfl rfl rfl⟩

/-- C10: a validly signed payload whose `user` parses to an object whose
numeric id is 0 falls into the falsy-id branch (the truthiness check treats
0 like an absent identity): 400 "Invalid user data in initData" and no store
write. -/
theorem C10_zero_id (body : Json) (tok : String) (r1 r2 : Nat) (st : Storage)
    (s : String) (fs : List (String × Json))
    (hInit : jget body "initData" = some (Json.str s)) (hs : s ≠ "") (htok : tok ≠ "")
    (hv : verifyInitData (strBytes s) (strBytes tok) = true)
    (hj : parsedUser s = some (Json.obj fs))
    (hid : jget (Json.obj fs) "id" = some (Json.num 0)) :
    authHandler body tok r1 r2 st = (⟨400, errBody "Invalid user data in initData"⟩, st) := by
  apply authHandler_userFail_falsy body tok r1 r2 st s (Json.obj fs) hInit hs htok hv hj
  simp [hid, jsTruthyOpt, jsTruthy]

set_option maxRecDepth 1000000 in
set_option maxHeartbeats 4000000 in
theorem C10_witness :
    authHandler body0 tok0 0 0 emptyStorage =
      (⟨400, errBody "Invalid user data in initData"⟩, emptyStorage) :=
  C10_zero_id body0 tok0 0 0 emptyStorage initData0 [("id", Json.num 0)]
    rfl (by decide) (by decide) (by decide) rfl rfl

/-- C8: every 200 response of the auth gateway renders exactly the public
identity fields `user.id`, `user.anonName`, `user.status`, `user.createdAt`
plus the top-level `status`; no `tgId` field and no `initData` field occurs
anywhere in the body. -/
theorem C8_response_shape (body : Json) (tok : String) (r1 r2 : Nat) (st : Storage)
    (resp : Resp) (st' : Storage)
    (hrun : authHandler body tok r1 r2 st = (resp, st')) (h200 : resp.status = 200) :
    ∃ u : User, resp.body = respOkBody u ∧
      jsonKeys resp.body = ["user", "id", "anonName", "status", "createdAt", "status"] ∧
      "tgId" ∉ jsonKeys resp.body ∧ "initData" ∉ jsonKeys resp.body := by
  obtain ⟨t, u, -, hR, -⟩ := authHandler_ok body tok r1 r2 st resp st' hrun h200
  have hbody : resp.body = respOkBody u := by rw [hR]
  have hk : jsonKeys (respOkBody u) =
      ["user", "id", "anonName", "status", "createdAt", "status"] := rfl
  exact ⟨u, hbody, by rw [hbody, hk], by rw [hbody, hk]; decide, by rw [hbody, hk]; decide⟩

set_option maxRecDepth 1000000 in
set_option maxHeartbeats 4000000 in
theorem C8_witness :
    jsonKeys authRun1.1.body = ["user", "id", "anonName", "status", "createdAt", "status"] ∧
    "tgId" ∉ jsonKeys authRun1.1.body := by
  obtain ⟨u, -, h2, h3, -⟩ :=
    C8_response_shape body42 tok0 0 0 emptyStorage authRun1.1 authRun1.2 rfl rfl
  exact ⟨h2, h3⟩

/-! ## C3 -/

/-- C3: a session with no bound user id, or whose cached status differs from
"approved", that handles `send_message` gets exactly one error event, the
store is not written (`createMessage` can never run: the handler returns the
store unchanged before reaching it), and no broadcast payload is produced. -/
theorem C3_unauthorized_send (s : Session) (m : Json) (st : Storage)
    (h : s.userId = none ∨ s.userStatus ≠ some "approved") :
    handleSendMessage s m st =
      ([OutEvent.errorEv "Not authenticated or not approved"], none, st) := by
  unfold handleSendMessage
  have hc : truthyNat s.userId = false ∨ s.userStatus ≠ some "approved" := by
    rcases h with h | h
    · left; rw [h]; rfl
    · right; exact h
  rw [if_pos hc]

theorem C3_witness :
    handleSendMessage ⟨true, none, none⟩ sendHi emptyStorage =
      ([OutEvent.errorEv "Not authenticated or not approved"], none, emptyStorage) :=
  C3_unauthorized_send ⟨true, none, none⟩ sendHi emptyStorage (Or.inl rfl)

/-! ## C6 -/

theorem getOrCreateGlobalRoom_messages (st : Storage) :
    (getOrCreateGlobalRoom st).2.messages = st.messages := by
  rcases hg : st.globalRoom with _ | r <;> simp [getOrCreateGlobalRoom, hg]

theorem getOrCreateGlobalRoom_users (st : Storage) :
    (getOrCreateGlobalRoom st).2.users = st.users := by
  rcases hg : st.globalRoom with _ | r <;> simp [getOrCreateGlobalRoom, hg]

/-- The replayed history is chronologically ascending and capped. -/
theorem getMessages_chron (st : Storage) (rid limit : Nat)
    (h : st.messages.Pairwise (fun a b => a.createdAt ≤ b.createdAt)) :
    List.Pairwise (fun a b => a.createdAt ≤ b.createdAt)
      ((getMessagesByRoomId st rid limit).map msgView) ∧
    ((getMessagesByRoomId st rid limit).map msgView).length ≤ limit := by
  constructor
  · simp only [getMessagesByRoomId, List.map_map, List.pairwise_map]
    have hsub : ((st.messages.filter (fun m => m.roomId == rid)).drop
        ((st.messages.filter (fun m => m.roomId == rid)).length - limit)).Sublist
        st.messages :=
      (List.drop_sublist _ _).trans (List.filter_sublist _)
    exact (h.sublist hsub).imp (fun hab => hab)
  · simp only [getMessagesByRoomId, List.length_map, List.length_drop]
    omega

/-- C6: an `auth` event naming an existing approved user emits `auth_success`
(with the user's id, pseudonym, status and the global room id) strictly
before `chat_history`, whose message list is chronologically ascending and
holds at most 50 messages. -/
theorem C6_auth_success (s : Session) (m : Json) (st : Storage) (uidJ : Json) (u : User)
    (hwf : StorageWF st)
    (hm : jget m "userId" = some uidJ) (htr : jsTruthy uidJ = true)
    (hu : getUserByIdJ st uidJ = some u) (hap : u.status = "approved") :
    handleAuth s m st =
      ({ s with userId := some u.id, userStatus := some "approved" },
       [OutEvent.authSuccess u.id u.anonName "approved" (getOrCreateGlobalRoom st).1.id,
        OutEvent.chatHistory
          ((getMessagesByRoomId (getOrCreateGlobalRoom st).2
            (getOrCreateGlobalRoom st).1.id 50).map msgView)],
       (getOrCreateGlobalRoom st).2) ∧
    List.Pairwise (fun a b => a.createdAt ≤ b.createdAt)
      ((getMessagesByRoomId (getOrCreateGlobalRoom st).2
        (getOrCreateGlobalRoom st).1.id 50).map msgView) ∧
    ((getMessagesByRoomId (getOrCreateGlobalRoom st).2
      (getOrCreateGlobalRoom st).1.id 50).map msgView).length ≤ 50 := by
  have hchron : (getOrCreateGlobalRoom st).2.messages.Pairwise
      (fun a b => a.createdAt ≤ b.createdAt) := by
    rw [getOrCreateGlobalRoom_messages]
    exact hwf.2.2.1
  obtain ⟨hpair, hlen⟩ := getMessages_chron (getOrCreateGlobalRoom st).2
    (getOrCreateGlobalRoom st).1.id 50 hchron
  refine ⟨?_, hpair, hlen⟩
  simp [handleAuth, hm, htr, hu, hap]

set_option maxRecDepth 100000 in
theorem C6_witness :
    handleAuth ⟨true, none, none⟩ authMsg1 stMsgs =
      ({ isOpen := true, userId := some 1, userStatus := some "approved" },
       [OutEvent.authSuccess 1 "Guest1000" "approved" 1,
        OutEvent.chatHistory
          [⟨1, "a", 0, some (1, "Guest1000")⟩, ⟨2, "b", 1, some (1, "Guest1000")⟩]],
       stMsgs) := by
  have h := C6_auth_success ⟨true, none, none⟩ authMsg1 stMsgs (Json.num 1)
    ⟨1, 7, none, "Guest1000", "approved", 0⟩ ?wf rfl rfl rfl rfl
  case wf =>
    refine ⟨by decide, by decide, ?_, by decide⟩
    simp [stMsgs, List.pairwise_cons]
  exact h.1.trans (by rfl)

/-! ## Preservation lemmas and step reductions -/

theorem getUserById_mem (st : Storage) (n : Nat) (u : User)
    (h : getUserById st n = some u) : u ∈ st.users :=
  List.mem_of_find?_eq_some h

theorem getUserByIdJ_mem (st : Storage) (v : Json) (u : User)
    (h : getUserByIdJ st v = some u) : u ∈ st.users := by
  unfold getUserByIdJ at h
  split at h
  · split at h
    · exact getUserById_mem _ _ _ h
    · exact Option.noConfusion h
  · exact Option.noConfusion h

theorem gocr_wf (st : Storage) (h : StorageWF st) :
    StorageWF (getOrCreateGlobalRoom st).2 := by
  rcases hg : st.globalRoom with _ | r <;> simp only [getOrCreateGlobalRoom, hg] <;> exact h

theorem createMessage_wf (st : Storage) (c : String) (uid rid : Nat) (h : StorageWF st) :
    StorageWF (createMessage st c uid rid).2 := by
  obtain ⟨h1, h2, h3, h4⟩ := h
  refine ⟨h1, h2, ?_, ?_⟩
  · simp only [createMessage]
    rw [List.pairwise_append]
    refine ⟨h3, List.pairwise_singleton _ _, ?_⟩
    intro a ha b hb
    rw [List.mem_singleton] at hb
    subst hb
    exact le_of_lt (h4 a ha)
  · intro mm hm
    simp only [createMessage] at hm ⊢
    rw [List.mem_append, List.mem_singleton] at hm
    show mm.createdAt < st.now + 1
    rcases hm with hm | hm
    · have := h4 mm hm; omega
    · subst hm; show st.now < st.now + 1; omega

theorem handleAuth_wf (s : Session) (m : Json) (st : Storage) (h : StorageWF st) :
    StorageWF (handleAuth s m st).2.2 := by
  unfold handleAuth
  split
  · exact h
  · split
    · exact h
    · split
      · exact h
      · split
        · exact h
        · exact gocr_wf st h

theorem handleSendMessage_wf (s : Session) (m : Json) (st : Storage) (h : StorageWF st) :
    StorageWF (handleSendMessage s m st).2.2 := by
  unfold handleSendMessage
  split
  · exact h
  · split
    · exact h
    · split
      · exact h
      · exact h
      · split
        · exact h
        · exact createMessage_wf _ _ _ _ (gocr_wf st h)
      · exact h

/-- `handleAuth` binds only user ids taken from stored rows. -/
theorem handleAuth_userId_bound (s : Session) (m : Json) (st : Storage)
    (h : StorageWF st) (hs : ∀ n, s.userId = some n → 1 ≤ n) :
    ∀ n, (handleAuth s m st).1.userId = some n → 1 ≤ n := by
  unfold handleAuth
  split
  · exact hs
  · split
    · exact hs
    · split
      · exact hs
      · rename_i u hfind
        have hmem : u ∈ st.users := getUserByIdJ_mem st _ u hfind
        have hpos : 1 ≤ u.id := h.1 u hmem
        split
        · intro n hn
          obtain rfl : u.id = n := by injection hn
          exact hpos
        · intro n hn
          obtain rfl : u.id = n := by injection hn
          exact hpos

theorem step_connect (w : World) :
    step w Ev.connect = (⟨w.sessions ++ [⟨true, none, none⟩], w.storage⟩, []) := rfl

theorem step_disconnect_none (w : World) (i : Nat) (hg : w.sessions.get? i = none) :
    step w (Ev.disconnect i) = (w, []) := by
  unfold step
  show (match w.sessions.get? i with
        | some s => ((⟨w.sessions.set i (closeSession s), w.storage⟩ : World),
                     ([] : List (Nat × OutEvent)))
        | none => (w, [])) = _
  rw [hg]

theorem step_disconnect_some (w : World) (i : Nat) (s : Session)
    (hg : w.sessions.get? i = some s) :
    step w (Ev.disconnect i) = (⟨w.sessions.set i (closeSession s), w.storage⟩, []) := by
  unfold step
  show (match w.sessions.get? i with
        | some s => ((⟨w.sessions.set i (closeSession s), w.storage⟩ : World),
                     ([] : List (Nat × OutEvent)))
        | none => (w, [])) = _
  rw [hg]

theorem step_wsMsg_none (w : World) (i : Nat) (m : Json)
    (hg : w.sessions.get? i = none) : step w (Ev.wsMsg i m) = (w, []) := by
  unfold step
  show (match w.sessions.get? i with
        | none => (w, ([] : List (Nat × OutEvent)))
        | some s => if s.isOpen = false then (w, []) else stepDispatch w i m s) = _
  rw [hg]

theorem step_wsMsg_closed (w : World) (i : Nat) (m : Json) (s : Session)
    (hg : w.sessions.get? i = some s) (hcl : s.isOpen = false) :
    step w (Ev.wsMsg i m) = (w, []) := by
  unfold step
  show (match w.sessions.get? i with
        | none => (w, ([] : List (Nat × OutEvent)))
        | some s => if s.isOpen = false then (w, []) else stepDispatch w i m s) = _
  rw [hg]
  show (if s.isOpen = false then (w, []) else stepDispatch w i m s) = _
  rw [if_pos hcl]

/-- Reduce a `wsMsg` step on an open session to the event-type dispatch. -/
theorem step_wsMsg_open (w : World) (i : Nat) (m : Json) (s : Session)
    (hg : w.sessions.get? i = some s) (hopen : s.isOpen = true) :
    step w (Ev.wsMsg i m) = stepDispatch w i m s := by
  unfold step
  show (match w.sessions.get? i with
        | none => (w, ([] : List (Nat × OutEvent)))
        | some s => if s.isOpen = false then (w, []) else stepDispatch w i m s) = _
  rw [hg]
  show (if s.isOpen = false then (w, []) else stepDispatch w i m s) = _
  rw [if_neg (by simp [hopen])]

theorem stepDispatch_auth (w : World) (i : Nat) (m : Json) (s : Session)
    (hty : jget m "type" = some (Json.str "auth")) :
    stepDispatch w i m s =
      (⟨w.sessions.set i (handleAuth s m w.storage).1, (handleAuth s m w.storage).2.2⟩,
       (handleAuth s m w.storage).2.1.map (fun ev => (i, ev))) := by
  unfold stepDispatch
  rw [hty]
  show (if ("auth" : String) = "auth" then _ else _) = _
  rw [if_pos rfl]

theorem stepDispatch_send (w : World) (i : Nat) (m : Json) (s : Session)
    (hty : jget m "type" = some (Json.str "send_message")) :
    stepDispatch w i m s =
      (⟨w.sessions, (handleSendMessage s m w.storage).2.2⟩,
       (handleSendMessage s m w.storage).1.map (fun ev => (i, ev)) ++
         (match (handleSendMessage s m w.storage).2.1 with
          | some v => (eligibleIdx w.sessions).map (fun j => (j, OutEvent.newMessage v))
          | none => [])) := by
  unfold stepDispatch
  rw [hty]
  show (if ("send_message" : String) = "auth" then _
        else if ("send_message" : String) = "send_message" then _ else _) = _
  rw [if_neg (by decide), if_pos rfl]

theorem stepDispatch_join (w : World) (i : Nat) (m : Json) (s : Session)
    (hty : jget m "type" = some (Json.str "join_room")) :
    stepDispatch w i m s =
      (⟨w.sessions, (getOrCreateGlobalRoom w.storage).2⟩,
       [(i, OutEvent.joinedRoom (getOrCreateGlobalRoom w.storage).1.id "Общий чат")]) := by
  unfold stepDispatch
  rw [hty]
  show (if ("join_room" : String) = "auth" then _
        else if ("join_room" : String) = "send_message" then _
        else if ("join_room" : String) = "join_room" then _ else _) = _
  rw [if_neg (by decide), if_neg (by decide), if_pos rfl]

theorem stepDispatch_unknown_str (w : World) (i : Nat) (m : Json) (s : Session) (t : String)
    (hty : jget m "type" = some (Json.str t))
    (hta : t ≠ "auth") (hts : t ≠ "send_message") (htj : t ≠ "join_room") :
    stepDispatch w i m s = (w, [(i, OutEvent.errorEv "Unknown message type")]) := by
  unfold stepDispatch
  rw [hty]
  show (if t = "auth" then _
        else if t = "send_message" then _
        else if t = "join_room" then _
        else (w, [(i, OutEvent.errorEv "Unknown message type")])) = _
  rw [if_neg hta, if_neg hts, if_neg htj]

/-- Every reachable world has a well-formed store and only positive bound
session ids. -/
theorem reachable_wf (w : World) (h : Reachable w) :
    StorageWF w.storage ∧ SessionsWF w := by
  induction h with
  | init st hst =>
    refine ⟨hst, ?_⟩
    intro s hs
    simp at hs
  | step w e hw ih =>
    obtain ⟨hst, hsess⟩ := ih
    cases e with
    | connect =>
      rw [step_connect]
      refine ⟨hst, ?_⟩
      intro s hs n hn
      rw [List.mem_append, List.mem_singleton] at hs
      rcases hs with hs | hs
      · exact hsess s hs n hn
      · subst hs; exact Option.noConfusion hn
    | disconnect i =>
      cases hg : w.sessions.get? i with
      | none => rw [step_disconnect_none w i hg]; exact ⟨hst, hsess⟩
      | some s0 =>
        rw [step_disconnect_some w i s0 hg]
        refine ⟨hst, ?_⟩
        intro s hs n hn
        rcases List.mem_or_eq_of_mem_set hs with hs | hs
        · exact hsess s hs n hn
        · subst hs
          exact hsess s0 (List.get?_mem hg) n hn
    | wsMsg i m =>
      cases hg : w.sessions.get? i with
      | none => rw [step_wsMsg_none w i m hg]; exact ⟨hst, hsess⟩
      | some s0 =>
        by_cases hopen : s0.isOpen = false
        · rw [step_wsMsg_closed w i m s0 hg hopen]; exact ⟨hst, hsess⟩
        · have hopen' : s0.isOpen = true := by revert hopen; cases s0.isOpen <;> simp
          rw [step_wsMsg_open w i m s0 hg hopen']
          rcases hty : jget m "type" with _ | tv
          · rw [show stepDispatch w i m s0 = (w, [(i, OutEvent.errorEv "Unknown message type")])
              from by unfold stepDispatch; rw [hty]]
            exact ⟨hst, hsess⟩
          · cases tv with
            | str t =>
              by_cases hta : t = "auth"
              · subst hta
                rw [stepDispatch_auth w i m s0 hty]
                refine ⟨handleAuth_wf s0 m w.storage hst, ?_⟩
                intro s hs n hn
                rcases List.mem_or_eq_of_mem_set hs with hs | hs
                · exact hsess s hs n hn
                · subst hs
                  exact handleAuth_userId_bound s0 m w.storage hst
                    (fun k hk => hsess s0 (List.get?_mem hg) k hk) n hn
              · by_cases hts : t = "send_message"
                · subst hts
                  rw [stepDispatch_send w i m s0 hty]
                  exact ⟨handleSendMessage_wf s0 m w.storage hst, hsess⟩
                · by_cases htj : t = "join_room"
                  · subst htj
                    rw [stepDispatch_join w i m s0 hty]
                    exact ⟨gocr_wf w.storage hst, hsess⟩
                  · rw [stepDispatch_unknown_str w i m s0 t hty hta hts htj]
                    exact ⟨hst, hsess⟩
            | null =>
              rw [show stepDispatch w i m s0 = (w, [(i, OutEvent.errorEv "Unknown message type")])
                from by unfold stepDispatch; rw [hty]]
              exact ⟨hst, hsess⟩
            | bool b =>
              rw [show stepDispatch w i m s0 = (w, [(i, OutEvent.errorEv "Unknown message type")])
                from by unfold stepDispatch; rw [hty]]
              exact ⟨hst, hsess⟩
            | num n =>
              rw [show stepDispatch w i m s0 = (w, [(i, OutEvent.errorEv "Unknown message type")])
                from by unfold stepDispatch; rw [hty]]
              exact ⟨hst, hsess⟩
            | arr xs =>
              rw [show stepDispatch w i m s0 = (w, [(i, OutEvent.errorEv "Unknown message type")])
                from by unfold stepDispatch; rw [hty]]
              exact ⟨hst, hsess⟩
            | obj fs =>
              rw [show stepDispatch w i m s0 = (w, [(i, OutEvent.errorEv "Unknown message type")])
                from by unfold stepDispatch; rw [hty]]
              exact ⟨hst, hsess⟩

/-- `handleSendMessage` returns either a single error event and an unchanged
store, or a broadcast payload with no events to the caller. -/
theorem handleSendMessage_shape (s : Session) (m : Json) (st : Storage) :
    (∃ msg, handleSendMessage s m st = ([OutEvent.errorEv msg], none, st)) ∨
    (∃ v st', handleSendMessage s m st = ([], some v, st')) := by
  unfold handleSendMessage
  split
  · exact Or.inl ⟨_, rfl⟩
  · split
    · exact Or.inl ⟨_, rfl⟩
    · split
      · exact Or.inl ⟨_, rfl⟩
      · exact Or.inl ⟨_, rfl⟩
      · split
        · exact Or.inl ⟨_, rfl⟩
        · exact Or.inr ⟨_, _, rfl⟩
      · exact Or.inl ⟨_, rfl⟩

/-- The events `handleAuth` sends to the authenticating session are never
`new_message` events. -/
theorem handleAuth_no_newMessage (s : Session) (m : Json) (st : Storage) :
    ∀ ev ∈ (handleAuth s m st).2.1, ∀ v, ev ≠ OutEvent.newMessage v := by
  unfold handleAuth
  split
  · intro ev hev v
    rw [List.mem_singleton] at hev
    subst hev
    exact OutEvent.noConfusion
  · split
    · intro ev hev v
      rw [List.mem_singleton] at hev
      subst hev
      exact OutEvent.noConfusion
    · split
      · intro ev hev v
        rw [List.mem_singleton] at hev
        subst hev
        exact OutEvent.noConfusion
      · split
        · intro ev hev v
          rw [List.mem_singleton] at hev
          subst hev
          exact OutEvent.noConfusion
        · intro ev hev v
          rw [List.mem_cons, List.mem_singleton] at hev
          rcases hev with hev | hev <;> subst hev <;> exact OutEvent.noConfusion

/-- Membership in the broadcast index list. -/
theorem mem_eligibleIdx (ss : List Session) (j : Nat) :
    j ∈ eligibleIdx ss ↔ ∃ s, ss.get? j = some s ∧ eligible s = true := by
  unfold eligibleIdx
  rw [List.mem_filter, List.mem_range]
  constructor
  · rintro ⟨hlt, hel⟩
    cases hsj : ss.get? j with
    | none => rw [hsj] at hel; exact absurd hel (by simp)
    | some s => rw [hsj] at hel; exact ⟨s, rfl, hel⟩
  · rintro ⟨s, hsj, hel⟩
    obtain ⟨hlt, -⟩ := List.get?_eq_some.mp hsj
    refine ⟨hlt, ?_⟩
    rw [hsj]
    exact hel

theorem get?_set_self {α : Type} : ∀ (l : List α) (i : Nat) (a : α),
    i < l.length → (l.set i a).get? i = some a
  | [], i, _, h => absurd h (by simp)
  | _ :: _, 0, _, _ => rfl
  | _ :: xs, i + 1, a, h => get?_set_self xs i a (by simpa using h)

theorem get?_set_other {α : Type} : ∀ (l : List α) (i j : Nat) (a : α),
    i ≠ j → (l.set i a).get? j = l.get? j
  | [], _, _, _, _ => rfl
  | _ :: _, 0, 0, _, h => absurd rfl h
  | _ :: _, 0, _ + 1, _, _ => rfl
  | _ :: _, _ + 1, 0, _, _ => rfl
  | _ :: xs, i + 1, j + 1, a, h => get?_set_other xs i j a (fun e => h (by rw [e]))

/-- One step neither delivers a `new_message` to a pending-status session
nor changes its cached status, as long as the event is not an `auth` frame
from that very session. -/
theorem step_pending_pres (w : World) (e : Ev) (i : Nat) (s : Session)
    (hi : w.sessions.get? i = some s) (hp : s.userStatus = some "pending")
    (hna : ∀ m, e = Ev.wsMsg i m → isAuthMsg m = false) :
    (∃ s', (step w e).1.sessions.get? i = some s' ∧ s'.userStatus = some "pending") ∧
    (∀ v, (i, OutEvent.newMessage v) ∉ (step w e).2) := by
  cases e with
  | connect =>
    rw [step_connect]
    refine ⟨⟨s, ?_, hp⟩, fun v h => List.not_mem_nil _ h⟩
    have hlt : i < w.sessions.length := (List.get?_eq_some.mp hi).1
    rw [List.get?_append hlt]
    exact hi
  | disconnect j =>
    cases hj : w.sessions.get? j with
    | none =>
      rw [step_disconnect_none w j hj]
      exact ⟨⟨s, hi, hp⟩, fun v h => List.not_mem_nil _ h⟩
    | some sj =>
      rw [step_disconnect_some w j sj hj]
      refine ⟨?_, fun v h => List.not_mem_nil _ h⟩
      by_cases hij : j = i
      · subst hij
        obtain rfl : s = sj := by rw [hi] at hj; exact Option.some.inj hj
        exact ⟨closeSession s, get?_set_self _ _ _ (List.get?_eq_some.mp hi).1, hp⟩
      · exact ⟨s, by rw [get?_set_other _ j i _ hij]; exact hi, hp⟩
  | wsMsg j m =>
    cases hj : w.sessions.get? j with
    | none =>
      rw [step_wsMsg_none w j m hj]
      exact ⟨⟨s, hi, hp⟩, fun v h => List.not_mem_nil _ h⟩
    | some sj =>
      by_cases hcl : sj.isOpen = false
      · rw [step_wsMsg_closed w j m sj hj hcl]
        exact ⟨⟨s, hi, hp⟩, fun v h => List.not_mem_nil _ h⟩
      · have hop : sj.isOpen = true := by revert hcl; cases sj.isOpen <;> simp
        rw [step_wsMsg_open w j m sj hj hop]
        rcases hty : jget m "type" with _ | tv
        ·
          rw [show stepDispatch w j m sj = (w, [(j, OutEvent.errorEv "Unknown message type")])
            from by unfold stepDispatch; rw [hty]]
          refine ⟨⟨s, hi, hp⟩, fun v h => ?_⟩
          rw [List.mem_singleton] at h
          exact OutEvent.noConfusion (congrArg Prod.snd h)
        · cases tv with
          | str t =>
            by_cases hta : t = "auth"
            · subst hta
              rw [stepDispatch_auth w j m sj hty]
              have hij : j ≠ i := by
                intro e
                subst e
                have hfalse := hna m rfl
                rw [show isAuthMsg m = true from by simp [isAuthMsg, hty]] at hfalse
                exact Bool.noConfusion hfalse
              refine ⟨⟨s, ?_, hp⟩, fun v h => ?_⟩
              · rw [get?_set_other _ j i _ hij]; exact hi
              · obtain ⟨ev, -, hpair⟩ := List.mem_map.mp h
                exact hij (congrArg Prod.fst hpair)
            · by_cases hts : t = "send_message"
              · subst hts
                rw [stepDispatch_send w j m sj hty]
                refine ⟨⟨s, hi, hp⟩, fun v h => ?_⟩
                rw [List.mem_append] at h
                rcases h with h | h
                · rcases handleSendMessage_shape sj m w.storage with ⟨msg, hh⟩ | ⟨v0, st', hh⟩ <;>
                    rw [hh] at h
                  · have h' : (i, OutEvent.newMessage v) ∈ [(j, OutEvent.errorEv msg)] := h
                    rw [List.mem_singleton] at h'
                    exact OutEvent.noConfusion (congrArg Prod.snd h')
                  · exact List.not_mem_nil _ h
                · rcases handleSendMessage_shape sj m w.storage with ⟨msg, hh⟩ | ⟨v0, st', hh⟩ <;>
                    rw [hh] at h
                  · exact List.not_mem_nil _ h
                  · obtain ⟨k, hk, hpair⟩ := List.mem_map.mp h
                    have hki : k = i := congrArg Prod.fst hpair
                    rw [hki] at hk
                    obtain ⟨s'', hs'', hel⟩ := (mem_eligibleIdx w.sessions i).mp hk
                    obtain rfl : s = s'' := by rw [hi] at hs''; exact Option.some.inj hs''
                    unfold eligible at hel
                    rw [hp] at hel
                    simp at hel
              · by_cases htj : t = "join_room"
                · subst htj
                  rw [stepDispatch_join w j m sj hty]
                  refine ⟨⟨s, hi, hp⟩, fun v h => ?_⟩
                  rw [List.mem_singleton] at h
                  exact OutEvent.noConfusion (congrArg Prod.snd h)
                · rw [stepDispatch_unknown_str w j m sj t hty hta hts htj]
                  refine ⟨⟨s, hi, hp⟩, fun v h => ?_⟩
                  rw [List.mem_singleton] at h
                  exact OutEvent.noConfusion (congrArg Prod.snd h)
          | null =>
            rw [show stepDispatch w j m sj = (w, [(j, OutEvent.errorEv "Unknown message type")])
              from by unfold stepDispatch; rw [hty]]
            refine ⟨⟨s, hi, hp⟩, fun v h => ?_⟩
            rw [List.mem_singleton] at h
            exact OutEvent.noConfusion (congrArg Prod.snd h)
          | bool b =>
            rw [show stepDispatch w j m sj = (w, [(j, OutEvent.errorEv "Unknown message type")])
              from by unfold stepDispatch; rw [hty]]
            refine ⟨⟨s, hi, hp⟩, fun v h => ?_⟩
            rw [List.mem_singleton] at h
            exact OutEvent.noConfusion (congrArg Prod.snd h)
          | num n =>
            rw [show stepDispatch w j m sj = (w, [(j, OutEvent.errorEv "Unknown message type")])
              from by unfold stepDispatch; rw [hty]]
            refine ⟨⟨s, hi, hp⟩, fun v h => ?_⟩
            rw [List.mem_singleton] at h
            exact OutEvent.noConfusion (congrArg Prod.snd h)
          | arr xs =>
            rw [show stepDispatch w j m sj = (w, [(j, OutEvent.errorEv "Unknown message type")])
              from by unfold stepDispatch; rw [hty]]
            refine ⟨⟨s, hi, hp⟩, fun v h => ?_⟩
            rw [List.mem_singleton] at h
            exact OutEvent.noConfusion (congrArg Prod.snd h)
          | obj fs =>
            rw [show stepDispatch w j m sj = (w, [(j, OutEvent.errorEv "Unknown message type")])
              from by unfold stepDispatch; rw [hty]]
            refine ⟨⟨s, hi, hp⟩, fun v h => ?_⟩
            rw [List.mem_singleton] at h
            exact OutEvent.noConfusion (congrArg Prod.snd h)

/-! ## C2 -/

/-- C2: (1) in every reachable world, when a `send_message` step broadcasts,
the `new_message` event is delivered to a session index iff that session is
open, has a bound user id and its cached status snapshot is "approved";
(2) a session whose cached status is "pending" (the state `handleAuth`
leaves after authenticating a pending user) never receives a `new_message`
over any run of further events that contains no `auth` frame from it. -/
theorem C2_broadcast_gating :
    (∀ w i m w' outs v, Reachable w → step w (Ev.wsMsg i m) = (w', outs) →
      (∃ j, (j, OutEvent.newMessage v) ∈ outs) →
      ∀ k, ((k, OutEvent.newMessage v) ∈ outs ↔
        ∃ s, w.sessions.get? k = some s ∧ s.isOpen = true ∧ s.userId ≠ none ∧
             s.userStatus = some "approved")) ∧
    (∀ w i s evs, w.sessions.get? i = some s → s.userStatus = some "pending" →
      (∀ m, Ev.wsMsg i m ∈ evs → isAuthMsg m = false) →
      ∀ v, (i, OutEvent.newMessage v) ∉ (runEvents w evs).2) := by
  constructor
  · intro w i m w' outs v hreach hstep hex k
    obtain ⟨hstWF, hsessWF⟩ := reachable_wf w hreach
    obtain ⟨j0, hj0⟩ := hex
    cases hg : w.sessions.get? i with
    | none =>
      rw [step_wsMsg_none w i m hg] at hstep
      injection hstep with h1 h2
      subst h2
      exact absurd hj0 (List.not_mem_nil _)
    | some s0 =>
      by_cases hcl : s0.isOpen = false
      · rw [step_wsMsg_closed w i m s0 hg hcl] at hstep
        injection hstep with h1 h2
        subst h2
        exact absurd hj0 (List.not_mem_nil _)
      · have hop : s0.isOpen = true := by revert hcl; cases s0.isOpen <;> simp
        rw [step_wsMsg_open w i m s0 hg hop] at hstep
        rcases hty : jget m "type" with _ | tv
        · rw [show stepDispatch w i m s0 = (w, [(i, OutEvent.errorEv "Unknown message type")])
            from by unfold stepDispatch; rw [hty]] at hstep
          injection hstep with h1 h2
          subst h2
          rw [List.mem_singleton] at hj0
          exact OutEvent.noConfusion (congrArg Prod.snd hj0)
        · cases tv with
          | str t =>
            by_cases hta : t = "auth"
            · subst hta
              rw [stepDispatch_auth w i m s0 hty] at hstep
              injection hstep with h1 h2
              subst h2
              obtain ⟨ev, hev, hpair⟩ := List.mem_map.mp hj0
              exact absurd (congrArg Prod.snd hpair)
                (handleAuth_no_newMessage s0 m w.storage ev hev v)
            · by_cases hts : t = "send_message"
              · subst hts
                rw [stepDispatch_send w i m s0 hty] at hstep
                rcases handleSendMessage_shape s0 m w.storage with ⟨msg, hh⟩ | ⟨v0, st', hh⟩ <;>
                  rw [hh] at hstep
                · injection hstep with h1 h2
                  subst h2
                  have hj0' : (j0, OutEvent.newMessage v) ∈ [(i, OutEvent.errorEv msg)] := hj0
                  rw [List.mem_singleton] at hj0'
                  exact OutEvent.noConfusion (congrArg Prod.snd hj0')
                · injection hstep with h1 h2
                  subst h2
                  have hj0' : (j0, OutEvent.newMessage v) ∈
                      (eligibleIdx w.sessions).map (fun j => (j, OutEvent.newMessage v0)) := hj0
                  obtain ⟨a, ha, hpair⟩ := List.mem_map.mp hj0'
                  obtain rfl : v0 = v := by
                    have h3 := congrArg Prod.snd hpair
                    injection h3
                  constructor
                  · intro hmem
                    have hmem' : (k, OutEvent.newMessage v0) ∈
                        (eligibleIdx w.sessions).map (fun j => (j, OutEvent.newMessage v0)) := hmem
                    obtain ⟨b, hb, hbp⟩ := List.mem_map.mp hmem'
                    have hbk : b = k := congrArg Prod.fst hbp
                    rw [hbk] at hb
                    obtain ⟨s, hsk, hel⟩ := (mem_eligibleIdx _ _).mp hb
                    unfold eligible at hel
                    rcases Bool.and_eq_true_iff.mp hel with ⟨h12, h3⟩
                    rcases Bool.and_eq_true_iff.mp h12 with ⟨ho, htr⟩
                    refine ⟨s, hsk, ho, ?_, eq_of_beq h3⟩
                    cases hsu : s.userId with
                    | none => rw [hsu] at htr; exact absurd htr (by simp [truthyNat])
                    | some n => exact Option.noConfusion
                  · rintro ⟨s, hsk, hso, hsn, hsa⟩
                    apply List.mem_map.mpr
                    refine ⟨k, ?_, rfl⟩
                    apply (mem_eligibleIdx _ _).mpr
                    refine ⟨s, hsk, ?_⟩
                    unfold eligible
                    rw [hso, hsa]
                    cases hsu : s.userId with
                    | none => exact absurd hsu hsn
                    | some n =>
                      have hpos : 1 ≤ n := hsessWF s (List.get?_mem hsk) n hsu
                      simp [truthyNat]
                      omega
              · by_cases htj : t = "join_room"
                · subst htj
                  rw [stepDispatch_join w i m s0 hty] at hstep
                  injection hstep with h1 h2
                  subst h2
                  rw [List.mem_singleton] at hj0
                  exact OutEvent.noConfusion (congrArg Prod.snd hj0)
                · rw [stepDispatch_unknown_str w i m s0 t hty hta hts htj] at hstep
                  injection hstep with h1 h2
                  subst h2
                  rw [List.mem_singleton] at hj0
                  exact OutEvent.noConfusion (congrArg Prod.snd hj0)
          | null =>
            rw [show stepDispatch w i m s0 = (w, [(i, OutEvent.errorEv "Unknown message type")])
              from by unfold stepDispatch; rw [hty]] at hstep
            injection hstep with h1 h2
            subst h2
            rw [List.mem_singleton] at hj0
            exact OutEvent.noConfusion (congrArg Prod.snd hj0)
          | bool b =>
            rw [show stepDispatch w i m s0 = (w, [(i, OutEvent.errorEv "Unknown message type")])
              from by unfold stepDispatch; rw [hty]] at hstep
            injection hstep with h1 h2
            subst h2
            rw [List.mem_singleton] at hj0
            exact OutEvent.noConfusion (congrArg Prod.snd hj0)
          | num n =>
            rw [show stepDispatch w i m s0 = (w, [(i, OutEvent.errorEv "Unknown message type")])
              from by unfold stepDispatch; rw [hty]] at hstep
            injection hstep with h1 h2
            subst h2
            rw [List.mem_singleton] at hj0
            exact OutEvent.noConfusion (congrArg Prod.snd hj0)
          | arr xs =>
            rw [show stepDispatch w i m s0 = (w, [(i, OutEvent.errorEv "Unknown message type")])
              from by unfold stepDispatch; rw [hty]] at hstep
            injection hstep with h1 h2
            subst h2
            rw [List.mem_singleton] at hj0
            exact OutEvent.noConfusion (congrArg Prod.snd hj0)
          | obj fs =>
            rw [show stepDispatch w i m s0 = (w, [(i, OutEvent.errorEv "Unknown message type")])
              from by unfold stepDispatch; rw [hty]] at hstep
            injection hstep with h1 h2
            subst h2
            rw [List.mem_singleton] at hj0
            exact OutEvent.noConfusion (congrArg Prod.snd hj0)
  · intro w i s evs
    induction evs generalizing w s with
    | nil =>
      intro hi hp hna v h
      simp [runEvents] at h
    | cons e rest ih =>
      intro hi hp hna v h
      obtain ⟨⟨s', hi', hp'⟩, hout⟩ := step_pending_pres w e i s hi hp
        (fun m hm => hna m (by rw [← hm]; exact List.mem_cons_self _ _))
      have hred : (runEvents w (e :: rest)).2 = (step w e).2 ++ (runEvents (step w e).1 rest).2 := rfl
      rw [hred, List.mem_append] at h
      rcases h with h | h
      · exact hout v h
      · exact ih (step w e).1 s' hi' hp' (fun m hm => hna m (List.mem_cons_of_mem _ hm)) v h

set_option maxRecDepth 1000000 in
theorem C2_witness :
    (((0 : Nat), OutEvent.newMessage ⟨1, "hi", 1, some (1, "Guest1000")⟩) ∈
        (step wA (Ev.wsMsg 0 sendHi)).2 ↔
      ∃ s, wA.sessions.get? 0 = some s ∧ s.isOpen = true ∧ s.userId ≠ none ∧
           s.userStatus = some "approved") ∧
    ((0, OutEvent.newMessage ⟨1, "hi", 1, some (2, "Anon1001")⟩) ∉ (runEvents wP evsP).2) := by
  constructor
  · exact C2_broadcast_gating.1 wA 0 sendHi (step wA (Ev.wsMsg 0 sendHi)).1
      (step wA (Ev.wsMsg 0 sendHi)).2 ⟨1, "hi", 1, some (1, "Guest1000")⟩
      (Reachable.step _ _ (Reachable.step _ _ (Reachable.init stApproved
        ⟨by decide, by decide, List.Pairwise.nil, by simp [stApproved]⟩)))
      rfl ⟨0, by decide⟩ 0
  · refine C2_broadcast_gating.2 wP 0 ⟨true, some 1, some "pending"⟩ evsP rfl rfl ?_ _
    intro m hm
    simp only [evsP, List.mem_cons, List.not_mem_nil, or_false] at hm
    rcases hm with h | h | h
    · exact Ev.noConfusion h
    · injection h with h1 h2
      exact absurd h1 (by decide)
    · injection h with h1 h2
      exact absurd h1 (by decide)
